import Mathlib

/-!
# Verification of the Stash backup-orchestration core

A shallow embedding, in Lean 4, of the Stash backup controller sources:

* `pkg/util/options.go` — restore-rule selection and repository setup options;
* the `backup` package — the in-process cron scheduler, its single-slot run
  lock and the leader-election gate;
* the `controller` package — the backup-invoker reconciliation logic, its
  condition writes, requeues, trigger CronJob and finalizer handling.

Go code with effects (Kubernetes API lookups, condition writes, queue adds)
is embedded as explicit state passing: an environment record supplies the
outcome of every collaborator call, and a trace record accumulates the
externally visible effects of a single reconciliation pass.  Go errors are
modelled as `Option Err` (`none` = nil), multi-value lookups that distinguish
`IsNotFound` as a three-way `LookupResult`.
-/

/-- A Go `error` message.  `Option Err` stands for a possibly-nil Go error. -/
abbrev Err := String

/-- Source `k8s.io/apimachinery/pkg/util/errors.NewAggregate`: drops nil errors,
returns nil for an empty list, the sole error for a singleton, and an
aggregate joining the messages otherwise. -/
def aggregate (errs : List (Option Err)) : Option Err :=
  match errs.filterMap id with
  | [] => none
  | [e] => some e
  | es => some (String.intercalate "; " es)

/-- Outcome of a Kubernetes `Get`-style call, separating the `IsNotFound`
error class from every other lookup error, as the Go sources do with
`kerr.IsNotFound(err)`. -/
inductive LookupResult (α : Type) where
  | found (value : α)
  | notFound
  | lookupError (err : Err)
deriving DecidableEq

namespace StashUtil

/-! ## `pkg/util/options.go` -/

/-- Source `api.Rule` — the fields read by `RestoreOptionsForHost`. -/
structure Rule where
  SourceHost : String
  TargetHosts : List String
  Paths : List String
  Snapshots : List String
  Include : List String
  Exclude : List String
deriving DecidableEq

/-- Source `restic.RestoreOptions` — the fields written by `RestoreOptionsForHost`. -/
structure RestoreOptions where
  Host : String
  SourceHost : String
  RestorePaths : List String
  Snapshots : List String
  Include : List String
  Exclude : List String
deriving DecidableEq

/-- The Go zero value of `restic.RestoreOptions`, the initial value of the
`matchedRule` variable. -/
def emptyRestoreOptions : RestoreOptions :=
  { Host := "", SourceHost := "", RestorePaths := [], Snapshots := [],
    Include := [], Exclude := [] }

/-- The `restic.RestoreOptions` literal built inside the loop of
`RestoreOptionsForHost` for a matching rule: `SourceHost` falls back to the
workload hostname when the rule leaves it empty. -/
def ruleRestoreOptions (hostname : String) (rule : Rule) : RestoreOptions :=
  { Host := hostname
    SourceHost := if rule.SourceHost ≠ "" then rule.SourceHost else hostname
    RestorePaths := rule.Paths
    Snapshots := rule.Snapshots
    Include := rule.Include
    Exclude := rule.Exclude }

/-- The loop of `RestoreOptionsForHost`, with the `matchedRule` accumulator
made explicit.  A rule matches when its `TargetHosts` list is empty or
contains the hostname (`go_str.Contains`); a match with a non-empty
`TargetHosts` list returns at once, a match with an empty one records the
options and keeps scanning. -/
def restoreLoop (hostname : String) (matchedRule : RestoreOptions) :
    List Rule → RestoreOptions
  | [] => matchedRule
  | rule :: rest =>
    if rule.TargetHosts.isEmpty || rule.TargetHosts.contains hostname then
      if rule.TargetHosts.isEmpty then
        restoreLoop hostname (ruleRestoreOptions hostname rule) rest
      else
        ruleRestoreOptions hostname rule
    else
      restoreLoop hostname matchedRule rest

/-- Source `RestoreOptionsForHost` from `pkg/util/options.go`. -/
def RestoreOptionsForHost (hostname : String) (rules : List Rule) :
    RestoreOptions :=
  restoreLoop hostname emptyRestoreOptions rules

/-- The last rule of the list whose `TargetHosts` is empty, if any: the rule
whose recorded options survive the scan when no non-empty-`TargetHosts` rule
matches. -/
def lastEmptyTargetRule (rules : List Rule) : Option Rule :=
  (rules.filter (fun r => r.TargetHosts.isEmpty)).getLast?

/-- The store backend referenced by a `Repository`, as consumed by
`SetupOptionsForRepository`.  `Provider`, `Container`, `Prefix`, `Endpoint`
and `Region` are resolver calls into the out-of-repo objectstore library;
each field records the call's Go `(value, error)` outcome as an `Except`. -/
structure Backend where
  Provider : Except Err String
  Container : Except Err String
  Prefix : Except Err String
  Endpoint : Except Err String
  Region : Except Err String
  MaxConnections : Nat

/-- Source `api_v1alpha1.Repository` — the field read by
`SetupOptionsForRepository`. -/
structure Repository where
  Backend : Backend

/-- Source `ExtraOptions` from `pkg/util/options.go`. -/
structure ExtraOptions where
  Host : String
  SecretDir : String
  CacertFile : String
  ScratchDir : String
  EnableCache : Bool
deriving DecidableEq

/-- Source `restic.SetupOptions` — the fields written by
`SetupOptionsForRepository`. -/
structure SetupOptions where
  Provider : String
  Bucket : String
  Path : String
  Endpoint : String
  Region : String
  CacertFile : String
  SecretDir : String
  ScratchDir : String
  EnableCache : Bool
  MaxConnections : Nat
deriving DecidableEq

/-- Go multiple-return convention of the out-of-repo backend resolvers: on
failure the value channel carries the zero value `""`.  `Endpoint` and
`Region` are read through this because the source discards their error with
a blank identifier (`endpoint, _ := ...`). -/
def valueIgnoringError (r : Except Err String) : String :=
  match r with
  | .ok v => v
  | .error _ => ""

/-- Source `SetupOptionsForRepository` from `pkg/util/options.go`: fails on the
first failing resolver among `Provider`, `Container`, `Prefix`; reads
`Endpoint` and `Region` discarding their errors. -/
def SetupOptionsForRepository (repository : Repository)
    (extraOpt : ExtraOptions) : Except Err SetupOptions :=
  match repository.Backend.Provider with
  | .error err => .error err
  | .ok provider =>
    match repository.Backend.Container with
    | .error err => .error err
    | .ok bucket =>
      match repository.Backend.Prefix with
      | .error err => .error err
      | .ok prfx =>
        .ok {
          Provider := provider
          Bucket := bucket
          Path := prfx
          Endpoint := valueIgnoringError repository.Backend.Endpoint
          Region := valueIgnoringError repository.Backend.Region
          CacertFile := extraOpt.CacertFile
          SecretDir := extraOpt.SecretDir
          ScratchDir := extraOpt.ScratchDir
          EnableCache := extraOpt.EnableCache
          MaxConnections := repository.Backend.MaxConnections }

end StashUtil

namespace StashController

/-! ## The `controller` package: backup-invoker reconciliation

`applyBackupInvokerReconciliationLogic` and its collaborators, embedded as a
state-passing interpreter.  A `ClusterEnv` fixes the outcome of every
collaborator call during one pass; a `RecTrace` accumulates the pass's
externally visible effects (condition writes, requeues, workload-queue
notifications, CronJob and finalizer operations). -/

/-- Source `api_v1beta1.TargetRef`. -/
structure TargetRef where
  apiVersion : String
  kind : String
  name : String
deriving DecidableEq

/-- Source `api_v1beta1.BackupTarget` — the field read by the reconciler. -/
structure BackupTarget where
  ref : TargetRef
deriving DecidableEq

/-- Source `invoker.TargetInfo` — `Target` is a possibly-nil pointer. -/
structure TargetInfo where
  target : Option BackupTarget
deriving DecidableEq

/-- The target references of the non-nil entries of a target list, in
order. -/
def targetRefs (l : List TargetInfo) : List TargetRef :=
  l.filterMap (fun ti => ti.target.map (fun t => t.ref))

/-- The `Repository` object as consumed by the reconciler: its namespace and
the `Spec.Backend.StorageSecretName` it references. -/
structure Repository where
  ns : String
  backendSecretName : String
deriving DecidableEq

/-- Condition statuses `core.ConditionTrue` / `ConditionFalse` /
`ConditionUnknown`. -/
inductive CondStatus where
  | ctrue
  | cfalse
  | cunknown
deriving DecidableEq

/-- The condition types written by the reconciler.  `backendSecretFound` and
`backupTargetFound` carry the argument the `conditions.Set*` helper receives
(the secret name, resp. the target reference). -/
inductive CondType where
  | repositoryFound
  | backendSecretFound (secretName : String)
  | backupTargetFound (tref : TargetRef)
  | cronJobCreated
deriving DecidableEq

/-- A condition write: type plus status. -/
structure Cond where
  type : CondType
  status : CondStatus
deriving DecidableEq

/-- Source `api_v1beta1.ResticSnapshotter`, the default driver name. -/
def ResticSnapshotter : String := "Restic"

/-- The driver test `inv.Driver == "" || inv.Driver ==
api_v1beta1.ResticSnapshotter` that guards the repository/secret phase and
the sidecar path. -/
def isDefaultDriver (driver : String) : Bool :=
  driver = "" || driver = ResticSnapshotter

/-- Source `api_v1beta1.ResourceKindBackupConfiguration`. -/
def ResourceKindBackupConfiguration : String := "BackupConfiguration"

/-- Runtime settings of the invoker's pod template that the trigger CronJob
copies. -/
structure PodRuntimeSettings where
  serviceAccountName : String
  imagePullSecrets : List String
  securityContext : Option String
deriving DecidableEq

/-- Runtime settings of the invoker's container template that the trigger
CronJob copies (the payloads are carried opaque strings). -/
structure ContainerRuntimeSettings where
  resources : String
  env : List String
  envFrom : List String
  securityContext : Option String
deriving DecidableEq

/-- Source `invoker.RuntimeSettings` — possibly-nil pod and container parts. -/
structure RuntimeSettings where
  pod : Option PodRuntimeSettings
  container : Option ContainerRuntimeSettings
deriving DecidableEq

/-- Source `invoker.BackupInvoker` — the normalized view the reconciler consumes.
`objectRef` mirrors the possibly-nil `inv.ObjectRef` used by the failure
handlers; `ownerRefName`/`ownerRefKind` mirror `inv.OwnerRef`. -/
structure BackupInvoker where
  kind : String
  ns : String
  name : String
  deletionTimestamp : Option String
  hasStashFinalizer : Bool
  driver : String
  repository : String
  targetsInfo : List TargetInfo
  schedule : String
  paused : Bool
  labels : List (String × String)
  runtimeSettings : RuntimeSettings
  ownerRefName : String
  ownerRefKind : String
  objectRef : Option Unit
deriving DecidableEq

/-- The collaborator outcomes fixed for one reconciliation pass.
`condFail c` is the error of persisting condition `c` (the `conditions.Set*`
helpers return an error); `workloadQueueErr` the result of
`sendEventToWorkloadQueue` for a target; `cronJobLookup`/`cronJobPatchErr`
drive `EnsureBackupTriggeringCronJobDeleted`. -/
structure ClusterEnv where
  repoLookup : String → LookupResult Repository
  secretLookup : String → String → LookupResult Unit
  targetExist : TargetRef → String → Except Err Bool
  condFail : Cond → Option Err
  addFinalizerErr : Option Err
  removeFinalizerErr : Option Err
  workloadQueueErr : TargetRef → Option Err
  cronJobEnsureErr : Option Err
  cronJobLookup : String → LookupResult Unit
  cronJobPatchErr : Option Err
  crbDeleteErr : Option Err
  eventWriteErr : Option Err

/-- The externally visible effects of one reconciliation pass. -/
structure RecTrace where
  conds : List Cond
  requeues : List (String × Nat)
  notified : List TargetRef
  cronJobEnsureAttempted : Bool
  cronJobEnsured : Bool
  cronJobUnowned : Bool
  crbDeleted : Bool
  finalizer : Bool
  events : Nat

/-- The trace at the start of a pass: nothing done yet, the finalizer in the
state the invoker carries. -/
def initTrace (inv : BackupInvoker) : RecTrace :=
  { conds := [], requeues := [], notified := [], cronJobEnsureAttempted := false,
    cronJobEnsured := false, cronJobUnowned := false, crbDeleted := false,
    finalizer := inv.hasStashFinalizer, events := 0 }

/-- A `conditions.Set*Condition*` call: persists the condition (appends it to
the trace) unless the write fails. -/
def setCondition (env : ClusterEnv) (c : Cond) (st : RecTrace) :
    Option Err × RecTrace :=
  match env.condFail c with
  | some e => (some e, st)
  | none => (none, { st with conds := st.conds ++ [c] })

/-- Writing a warning event to the invoker (`eventer.CreateEvent`). -/
def writeWarningEvent (env : ClusterEnv) (st : RecTrace) :
    Option Err × RecTrace :=
  (env.eventWriteErr, { st with events := st.events + 1 })

/-- The error text both failure handlers produce for a nil
`ObjectReference`. -/
def refNilError : Err := "provided ObjectReference is nil"

/-- Source `handleWorkloadControllerTriggerFailure`: aggregates the step error with
the event-write error (or with a nil-reference complaint). -/
def handleWorkloadControllerTriggerFailure (env : ClusterEnv)
    (objectRef : Option Unit) (err : Err) (st : RecTrace) :
    Option Err × RecTrace :=
  match objectRef with
  | none => (aggregate [some err, some refNilError], st)
  | some _ =>
    let r := writeWarningEvent env st
    (aggregate [some err, r.1], r.2)

/-- Source `handleCronJobCreationFailure`: same shape as
`handleWorkloadControllerTriggerFailure`. -/
def handleCronJobCreationFailure (env : ClusterEnv) (objectRef : Option Unit)
    (err : Err) (st : RecTrace) : Option Err × RecTrace :=
  match objectRef with
  | none => (aggregate [some err, some refNilError], st)
  | some _ =>
    let r := writeWarningEvent env st
    (aggregate [some err, r.1], r.2)

/-- Source `requeueInvoker`: adds the key back to the BackupConfiguration queue
after the given delay (in seconds here); any other invoker kind is
unsupported and yields an error. -/
def requeueInvoker (inv : BackupInvoker) (key : String) (delaySeconds : Nat)
    (st : RecTrace) : Option Err × RecTrace :=
  if inv.kind = ResourceKindBackupConfiguration then
    (none, { st with requeues := st.requeues ++ [(key, delaySeconds)] })
  else
    (some "unable to requeue: unsupported backup invoker kind", st)

/-- Source `sendEventToWorkloadQueue`, as called by `EnsureV1beta1Sidecar` and
`EnsureV1beta1SidecarDeleted`: notifies the workload's queue and reports the
environment's outcome for that target. -/
def notifyWorkloadQueue (env : ClusterEnv) (tref : TargetRef) (st : RecTrace) :
    Option Err × RecTrace :=
  (env.workloadQueueErr tref, { st with notified := st.notified ++ [tref] })

/-- Source `apis.PrefixStashTrigger` (out-of-repo constant). -/
def PrefixStashTrigger : String := "stash-trigger"

/-- Source `getBackupCronJobName`: joins the `stash-trigger` prefix with the invoker
name, dots replaced by dashes (`meta2.ValidCronJobNameWithPrefix` is the
out-of-repo join). -/
def getBackupCronJobName (name : String) : String :=
  PrefixStashTrigger ++ "-" ++ (name.replace "." "-")

/-- The error of `EnsureBackupTriggeringCronJobDeleted` as a function of the
environment: a missing CronJob is success (nothing to un-own), a lookup
error or patch error is reported. -/
def cronJobUnownResult (env : ClusterEnv) (inv : BackupInvoker) : Option Err :=
  match env.cronJobLookup (getBackupCronJobName inv.name) with
  | .notFound => none
  | .lookupError e => some e
  | .found _ => env.cronJobPatchErr

/-- Source `EnsureBackupTriggeringCronJobDeleted`: looks the trigger CronJob up; if
present, patches the invoker in as owner so garbage collection removes it. -/
def ensureBackupTriggeringCronJobDeleted (env : ClusterEnv)
    (inv : BackupInvoker) (st : RecTrace) : Option Err × RecTrace :=
  match env.cronJobLookup (getBackupCronJobName inv.name) with
  | .notFound => (none, st)
  | .lookupError e => (some e, st)
  | .found _ =>
    match env.cronJobPatchErr with
    | some e => (some e, st)
    | none => (none, { st with cronJobUnowned := true })

/-- The effectful step `EnsureBackupTriggeringCronJob` performs inside the
reconciliation pass (its desired CronJob contents are the pure
`backupCronJobTransform` below). -/
def ensureBackupTriggeringCronJobStep (env : ClusterEnv) (st : RecTrace) :
    Option Err × RecTrace :=
  let st1 := { st with cronJobEnsureAttempted := true }
  match env.cronJobEnsureErr with
  | some e => (some e, st1)
  | none => (none, { st1 with cronJobEnsured := true })

/-- The workload kinds the target dispatcher serves
(`workload_api.Kind*`). -/
def workloadKinds : List String :=
  ["Deployment", "DaemonSet", "StatefulSet", "ReplicationController",
   "ReplicaSet", "DeploymentConfig"]

/-- Modelled from the spec: `util.BackupModel` is in this repository but not
under the provided sources; per §4.6 and §3 the sidecar model applies to the
workload kinds served by the target dispatcher, other targets back up
through jobs. -/
def backupModel (kind : String) : String :=
  if workloadKinds.contains kind then "sidecar" else "cronjob"

/-- Source `apis.ModelSidecar`. -/
def ModelSidecar : String := "sidecar"

/-- The per-target loop of `applyBackupInvokerReconciliationLogic`: probes
each non-nil target's existence, writes its `BackupTargetFound` condition
(`Unknown` aborting with the aggregated error, `False` marking the pass as
having a missing target and continuing, `True` additionally ensuring the
sidecar for sidecar-model targets under the default driver). -/
def targetLoop (env : ClusterEnv) (inv : BackupInvoker) :
    List TargetInfo → Bool → RecTrace → Option Err × Bool × RecTrace
  | [], someTargetMissing, st => (none, someTargetMissing, st)
  | ti :: rest, someTargetMissing, st =>
    match ti.target with
    | none => targetLoop env inv rest someTargetMissing st
    | some t =>
      match env.targetExist t.ref inv.ns with
      | .error e =>
        let r := setCondition env ⟨.backupTargetFound t.ref, .cunknown⟩ st
        (aggregate [some e, r.1], someTargetMissing, r.2)
      | .ok false =>
        match setCondition env ⟨.backupTargetFound t.ref, .cfalse⟩ st with
        | (some e, st1) => (some e, true, st1)
        | (none, st1) => targetLoop env inv rest true st1
      | .ok true =>
        match setCondition env ⟨.backupTargetFound t.ref, .ctrue⟩ st with
        | (some e, st1) => (some e, someTargetMissing, st1)
        | (none, st1) =>
          if isDefaultDriver inv.driver ∧ backupModel t.ref.kind = ModelSidecar then
            match notifyWorkloadQueue env t.ref st1 with
            | (some err, st2) =>
              let r := handleWorkloadControllerTriggerFailure env inv.objectRef err st2
              (r.1, someTargetMissing, r.2)
            | (none, st2) => targetLoop env inv rest someTargetMissing st2
          else targetLoop env inv rest someTargetMissing st1

/-- Whether a target-list entry is a present target whose existence probe
answers "does not exist" — the entries that make the pass set
`someTargetMissing`. -/
def probedMissing (env : ClusterEnv) (inv : BackupInvoker)
    (ti : TargetInfo) : Bool :=
  match ti.target with
  | some t =>
    match env.targetExist t.ref inv.ns with
    | .ok false => true
    | _ => false
  | none => false

/-- The tail of the non-deletion pass after the target loop: requeue after
5 seconds when some target is missing, otherwise ensure the trigger CronJob
and write the `CronJobCreated` condition. -/
def targetPhase (env : ClusterEnv) (inv : BackupInvoker) (key : String)
    (st : RecTrace) : Option Err × RecTrace :=
  match targetLoop env inv inv.targetsInfo false st with
  | (some e, _, st1) => (some e, st1)
  | (none, someTargetMissing, st1) =>
    if someTargetMissing then
      requeueInvoker inv key 5 st1
    else
      match ensureBackupTriggeringCronJobStep env st1 with
      | (some e, st2) =>
        let r := setCondition env ⟨.cronJobCreated, .cfalse⟩ st2
        match aggregate [some e, r.1] with
        | some agg => handleCronJobCreationFailure env inv.objectRef agg r.2
        | none => handleCronJobCreationFailure env inv.objectRef e r.2
      | (none, st2) =>
        let r := setCondition env ⟨.cronJobCreated, .ctrue⟩ st2
        (r.1, r.2)

/-- The non-deletion pass after `AddFinalizer`: under the default driver,
look up the repository (not-found ⇒ `RepositoryFound=False` plus 5-second
requeue; lookup error ⇒ `RepositoryFound=Unknown` plus aggregated error),
then its backend secret with the same policy (the failed Go `Get` leaves the
secret name empty in the condition calls), then run the target phase. -/
def reconcileAfterFinalizer (env : ClusterEnv) (inv : BackupInvoker)
    (key : String) (st : RecTrace) : Option Err × RecTrace :=
  if isDefaultDriver inv.driver then
    match env.repoLookup inv.repository with
    | .notFound =>
      match setCondition env ⟨.repositoryFound, .cfalse⟩ st with
      | (some e2, st1) => (some e2, st1)
      | (none, st1) => requeueInvoker inv key 5 st1
    | .lookupError e =>
      let r := setCondition env ⟨.repositoryFound, .cunknown⟩ st
      (aggregate [some e, r.1], r.2)
    | .found repo =>
      match setCondition env ⟨.repositoryFound, .ctrue⟩ st with
      | (some e, st1) => (some e, st1)
      | (none, st1) =>
        match env.secretLookup repo.ns repo.backendSecretName with
        | .notFound =>
          match setCondition env ⟨.backendSecretFound "", .cfalse⟩ st1 with
          | (some e2, st2) => (some e2, st2)
          | (none, st2) => requeueInvoker inv key 5 st2
        | .lookupError e =>
          let r := setCondition env ⟨.backendSecretFound "", .cunknown⟩ st1
          (aggregate [some e, r.1], r.2)
        | .found _ =>
          match setCondition env
              ⟨.backendSecretFound repo.backendSecretName, .ctrue⟩ st1 with
          | (some e, st2) => (some e, st2)
          | (none, st2) => targetPhase env inv key st2
  else targetPhase env inv key st

/-- The deletion branch's per-target loop: notify every non-nil target's
workload queue to remove the sidecar, aborting through
`handleWorkloadControllerTriggerFailure` on the first failure. -/
def sidecarDeletionLoop (env : ClusterEnv) (objectRef : Option Unit) :
    List TargetInfo → RecTrace → Option Err × RecTrace
  | [], st => (none, st)
  | ti :: rest, st =>
    match ti.target with
    | none => sidecarDeletionLoop env objectRef rest st
    | some t =>
      match notifyWorkloadQueue env t.ref st with
      | (some err, st1) => handleWorkloadControllerTriggerFailure env objectRef err st1
      | (none, st1) => sidecarDeletionLoop env objectRef rest st1

/-- Source `applyBackupInvokerReconciliationLogic`.  Deletion requested with the
Stash finalizer present: remove sidecars, un-own the trigger CronJob, delete
the cluster role bindings, then remove the finalizer, aborting on the first
failing step.  Otherwise: add the finalizer and reconcile dependencies. -/
def applyBackupInvokerReconciliationLogic (env : ClusterEnv)
    (inv : BackupInvoker) (key : String) : Option Err × RecTrace :=
  let st0 := initTrace inv
  if inv.deletionTimestamp.isSome then
    if inv.hasStashFinalizer then
      match sidecarDeletionLoop env inv.objectRef inv.targetsInfo st0 with
      | (some e, st1) => (some e, st1)
      | (none, st1) =>
        match ensureBackupTriggeringCronJobDeleted env inv st1 with
        | (some e, st2) => (some e, st2)
        | (none, st2) =>
          match env.crbDeleteErr with
          | some e => (some e, st2)
          | none =>
            let st3 := { st2 with crbDeleted := true }
            match env.removeFinalizerErr with
            | some e => (some e, st3)
            | none => (none, { st3 with finalizer := false })
    else (none, st0)
  else
    match env.addFinalizerErr with
    | some e => (some e, st0)
    | none => reconcileAfterFinalizer env inv key { st0 with finalizer := true }

/-- Source `apis.StashCronJobContainer` (out-of-repo constant). -/
def StashCronJobContainer : String := "stash-trigger"

/-- A container of the trigger CronJob's job template. -/
structure CronContainer where
  name : String
  imagePullPolicy : String
  image : String
  args : List String
  resources : String
  env : List String
  envFrom : List String
  securityContext : Option String
deriving DecidableEq

/-- The trigger CronJob fields written by `EnsureBackupTriggeringCronJob`'s
`CreateOrPatchCronJob` mutation. -/
structure CronJob where
  ownerRefEnsured : Bool
  labels : List (String × String)
  schedule : String
  suspend : Option Bool
  jobTemplateLabels : List (String × String)
  podTemplateLabels : List (String × String)
  containers : List CronContainer
  restartPolicy : String
  serviceAccountName : String
  imagePullSecrets : List String
  podSecurityContext : Option String
deriving DecidableEq

/-- Source `core_util.UpsertMap` (out-of-repo): later entries overwrite earlier
ones with the same key. -/
def upsertMap (m add : List (String × String)) : List (String × String) :=
  add.foldl (fun acc kv => (acc.filter (fun x => x.1 ≠ kv.1)) ++ [kv]) m

/-- Source `core_util.UpsertContainer` (out-of-repo): replaces the container with
the same name, or appends. -/
def upsertContainer (cs : List CronContainer) (c : CronContainer) :
    List CronContainer :=
  if cs.any (fun x => x.name = c.name) then
    cs.map (fun x => if x.name = c.name then c else x)
  else cs ++ [c]

/-- Source `apis.KeyDeleteJobOnCompletion` / `apis.AllowDeletingJobOnCompletion`
(out-of-repo constants). -/
def KeyDeleteJobOnCompletion : String := "stash.appscode.com/delete-job-on-completion"

/-- See `KeyDeleteJobOnCompletion`. -/
def AllowDeletingJobOnCompletion : String := "true"

/-- The service account the trigger CronJob runs as: the one specified in
the invoker's pod runtime settings if non-empty, otherwise one named like
the CronJob itself. -/
def cronJobServiceAccountName (inv : BackupInvoker) : String :=
  match inv.runtimeSettings.pod with
  | some p =>
    if p.serviceAccountName ≠ "" then p.serviceAccountName
    else getBackupCronJobName inv.name
  | none => getBackupCronJobName inv.name

/-- The `CreateOrPatchCronJob` mutation closure of
`EnsureBackupTriggeringCronJob`: sets the owner reference, schedule, the
suspend flag from the invoker's `Paused`, labels, the
`create-backupsession` container, restart policy `Never`, service account
and image pull secrets, then overlays the invoker's pod-level settings. -/
def backupCronJobTransform (inv : BackupInvoker) (serviceAccountName : String)
    (image : String) (imagePullSecrets : List String) (c : CronJob) : CronJob :=
  let jobLabels := upsertMap (upsertMap c.labels inv.labels)
    [(KeyDeleteJobOnCompletion, AllowDeletingJobOnCompletion)]
  let container0 : CronContainer :=
    { name := StashCronJobContainer
      imagePullPolicy := "IfNotPresent"
      image := image
      args := ["create-backupsession",
               "--invoker-name=" ++ inv.ownerRefName,
               "--invoker-kind=" ++ inv.ownerRefKind]
      resources := "", env := [], envFrom := [], securityContext := none }
  let container :=
    match inv.runtimeSettings.container with
    | some cs =>
      { container0 with
        resources := cs.resources
        env := cs.env
        envFrom := cs.envFrom
        securityContext := cs.securityContext }
    | none => container0
  let c1 :=
    { c with
      ownerRefEnsured := true
      schedule := inv.schedule
      suspend := some inv.paused
      jobTemplateLabels := jobLabels
      podTemplateLabels := upsertMap c.podTemplateLabels inv.labels
      containers := upsertContainer c.containers container
      restartPolicy := "Never"
      serviceAccountName := serviceAccountName
      imagePullSecrets := imagePullSecrets }
  match inv.runtimeSettings.pod with
  | some p =>
    let c2 :=
      if p.imagePullSecrets ≠ [] then
        { c1 with imagePullSecrets := p.imagePullSecrets }
      else c1
    match p.securityContext with
    | some sc => { c2 with podSecurityContext := some sc }
    | none => c2
  | none => c1

end StashController

namespace StashBackup

/-! ## The `backup` package: in-process cron scheduler, run lock, leader
election

`runOnceForScheduler` / `checkOnceForScheduler` compete for the single-slot
channel `c.locked` (buffered with one token, filled once by `runScheduler`).
The lock is a `Bool` "token available"; a firing returns its error, the
token availability after it returns, and the list of work steps it
performed. -/

/-- Source `api.Restic` — the fields `runOnceForScheduler` reads. -/
structure Restic where
  storageSecretName : String
deriving DecidableEq

/-- The work steps a scheduler firing can perform, in the order the source
performs them. -/
inductive SchedStep where
  | resticGet
  | secretGet
  | setupEnv
  | initRepo
  | createRepoCrd
  | runBackup
  | repoGet
  | repoCheck
deriving DecidableEq

/-- Collaborator outcomes for one firing of the backup or check action. -/
structure SchedulerEnv where
  resticLookup : LookupResult Restic
  secretGet : Except Err Unit
  setupEnvResult : Except Err String
  initRepoErr : Option Err
  createRepoCrdResult : Except Err Unit
  runBackupErr : Option Err
  repositoryGet : LookupResult Unit
  checkErr : Option Err

/-- The body of `runOnceForScheduler` once the lock has been acquired:
re-fetch the Restic (not-found is silently nil), require a storage secret
name, fetch the secret, set up the restic environment, initialize the
repository if absent, ensure the Repository CRD, then run the backup.  The
deferred channel send returns the token on every exit path, so the lock
component is `true` throughout. -/
def runOnceBody (env : SchedulerEnv) : Option Err × Bool × List SchedStep :=
  match env.resticLookup with
  | .notFound => (none, true, [.resticGet])
  | .lookupError e => (some e, true, [.resticGet])
  | .found restic =>
    if restic.storageSecretName = "" then
      (some "missing repository secret name", true, [.resticGet])
    else
      match env.secretGet with
      | .error e => (some e, true, [.resticGet, .secretGet])
      | .ok _ =>
        match env.setupEnvResult with
        | .error e => (some e, true, [.resticGet, .secretGet, .setupEnv])
        | .ok _ =>
          match env.initRepoErr with
          | some e => (some e, true, [.resticGet, .secretGet, .setupEnv, .initRepo])
          | none =>
            match env.createRepoCrdResult with
            | .error e =>
              (some e, true,
               [.resticGet, .secretGet, .setupEnv, .initRepo, .createRepoCrd])
            | .ok _ =>
              (env.runBackupErr, true,
               [.resticGet, .secretGet, .setupEnv, .initRepo, .createRepoCrd,
                .runBackup])

/-- Source `runOnceForScheduler`: non-blocking select on the lock channel — if the
token is unavailable the firing logs and returns nil doing nothing;
otherwise it runs the backup body with the token returned on completion. -/
def runOnceForScheduler (env : SchedulerEnv) (lockAvailable : Bool) :
    Option Err × Bool × List SchedStep :=
  if lockAvailable then runOnceBody env
  else (none, false, [])

/-- Source `checkOnceForScheduler`: fetches the Repository CRD first (not-found is
silently nil, a lookup error is returned) and only then tries the lock
non-blockingly; if acquired, runs the repository check, writing a warning
event on failure, with the token returned on completion. -/
def checkOnceForScheduler (env : SchedulerEnv) (lockAvailable : Bool) :
    Option Err × Bool × List SchedStep :=
  match env.repositoryGet with
  | .notFound => (none, lockAvailable, [.repoGet])
  | .lookupError e => (some e, lockAvailable, [.repoGet])
  | .found _ =>
    if lockAvailable then
      (env.checkErr, true, [.repoGet, .repoCheck])
    else
      (none, false, [.repoGet])

/-- The two actions `configureScheduler` registers with the in-process
cron. -/
inductive CronAction where
  | backupAction
  | checkAction
deriving DecidableEq

/-- The fixed cron expression of the check action: midnight of every third
day of the month. -/
def checkCronSpec : String := "0 0 */3 * *"

/-- Source `configureScheduler`: removes every previous cron entry, then registers
the backup action on the Restic's configured schedule and the check action
on the fixed `checkCronSpec`; `addFuncErr` is the cron library's reaction
to each schedule string.  Returns the error and the registered entries. -/
def configureScheduler (addFuncErr : String → Option Err)
    (_previousEntries : List (String × CronAction)) (resticSchedule : String) :
    Option Err × List (String × CronAction) :=
  match addFuncErr resticSchedule with
  | some e => (some e, [])
  | none =>
    match addFuncErr checkCronSpec with
    | some e => (some e, [(resticSchedule, .backupAction)])
    | none =>
      (none, [(resticSchedule, .backupAction), (checkCronSpec, .checkAction)])

/-- Source `apis.KindDeployment` (out-of-repo constant). -/
def KindDeployment : String := "Deployment"

/-- Source `apis.KindReplicaSet` (out-of-repo constant). -/
def KindReplicaSet : String := "ReplicaSet"

/-- Source `apis.KindReplicationController` (out-of-repo constant). -/
def KindReplicationController : String := "ReplicationController"

/-- How `BackupScheduler` starts the in-process cron scheduler: behind the
leader-election gate with the given lease parameters (seconds), or set up
and started directly. -/
inductive SchedulerStart where
  | viaLeaderElection (leaseDurationSec renewDeadlineSec retryPeriodSec : Nat)
  | direct
deriving DecidableEq

/-- The `LeaderElectionConfig` built by `electLeader`: lease duration 15s,
renew deadline 10s, retry period 2s, with the scheduler set up and run by
the `OnStartedLeading` callback. -/
def electLeaderStart : SchedulerStart := .viaLeaderElection 15 10 2

/-- The dispatch of `BackupScheduler` on the owning workload's kind:
Deployment, ReplicaSet and ReplicationController go through `electLeader`,
every other kind sets up and runs the scheduler directly. -/
def BackupScheduler (workloadKind : String) : SchedulerStart :=
  if workloadKind = KindDeployment ∨ workloadKind = KindReplicaSet ∨
      workloadKind = KindReplicationController then
    electLeaderStart
  else
    .direct

/-- Modelled from the spec: which workload kinds support multiple concurrent
replicas of the same scheduler responsibility (§4.4 — horizontally-scaled
controllers whose replicas share one leader lease), as opposed to kinds
whose pods each own their per-pod backup (per-pod repositories, §4.4 "For
workload kinds that are inherently single-replica, this gate is
bypassed"). -/
def supportsMultipleConcurrentReplicas (workloadKind : String) : Bool :=
  workloadKind = KindDeployment || workloadKind = KindReplicaSet ||
    workloadKind = KindReplicationController

end StashBackup

/-! ## Concrete inputs used by the claim witnesses -/

namespace StashUtil

/-- A backend whose endpoint resolver fails while provider, container and
prefix resolve, used to exercise `setupOptions_error_policy`. -/
def witnessRepository : Repository :=
  { Backend :=
    { Provider := .ok "s3"
      Container := .ok "bucket"
      Prefix := .ok "stash/demo"
      Endpoint := .error "endpoint is not configured"
      Region := .ok "us-east-1"
      MaxConnections := 0 } }

/-- See `witnessRepository`. -/
def witnessExtraOptions : ExtraOptions :=
  { Host := "h", SecretDir := "/tmp/secret", CacertFile := "",
    ScratchDir := "/tmp/scratch", EnableCache := true }

/-- The success result `SetupOptionsForRepository` produces on
`witnessRepository`: note the zero-value `Endpoint`. -/
def witnessSetupOptions : SetupOptions :=
  { Provider := "s3", Bucket := "bucket", Path := "stash/demo",
    Endpoint := "", Region := "us-east-1", CacertFile := "",
    SecretDir := "/tmp/secret", ScratchDir := "/tmp/scratch",
    EnableCache := true, MaxConnections := 0 }

end StashUtil

namespace StashBackup

/-- The environment refuting C5 as stated: the check action's preliminary
repository lookup fails. -/
def checkLookupFailureEnv : SchedulerEnv :=
  { resticLookup := .notFound
    secretGet := .ok ()
    setupEnvResult := .ok "stash-demo"
    initRepoErr := none
    createRepoCrdResult := .ok ()
    runBackupErr := none
    repositoryGet := .lookupError "repository lookup failed"
    checkErr := none }

/-- A fully healthy scheduler environment, for exercising the lock
theorems. -/
def healthySchedulerEnv : SchedulerEnv :=
  { resticLookup := .found { storageSecretName := "backup-secret" }
    secretGet := .ok ()
    setupEnvResult := .ok "stash-demo"
    initRepoErr := none
    createRepoCrdResult := .ok ()
    runBackupErr := none
    repositoryGet := .found ()
    checkErr := none }

/-- Splits a character list on spaces (helper for `cronFields`). -/
def splitChars : List Char → List Char → List String
  | [], acc => [String.mk acc.reverse]
  | c :: cs, acc =>
    if c = ' ' then String.mk acc.reverse :: splitChars cs []
    else splitChars cs (c :: acc)

/-- The space-separated fields of a cron expression, used to read the
minute/hour/day-of-month/month/day-of-week structure of `checkCronSpec`. -/
def cronFields (s : String) : List String := splitChars s.data []

end StashBackup

namespace StashController

/-- A reconciliation environment in which every collaborator succeeds and
every dependency exists. -/
def healthyClusterEnv : ClusterEnv :=
  { repoLookup := fun _ => .found { ns := "demo", backendSecretName := "backup-secret" }
    secretLookup := fun _ _ => .found ()
    targetExist := fun _ _ => .ok true
    condFail := fun _ => none
    addFinalizerErr := none
    removeFinalizerErr := none
    workloadQueueErr := fun _ => none
    cronJobEnsureErr := none
    cronJobLookup := fun _ => .notFound
    cronJobPatchErr := none
    crbDeleteErr := none
    eventWriteErr := none }

/-- First target of the witness invoker. -/
def witnessTargetRef1 : TargetRef :=
  { apiVersion := "apps/v1", kind := "Deployment", name := "dep-1" }

/-- Second target of the witness invoker. -/
def witnessTargetRef2 : TargetRef :=
  { apiVersion := "apps/v1", kind := "StatefulSet", name := "sts-1" }

/-- A live (non-deleting) BackupConfiguration invoker with two targets. -/
def witnessInvoker : BackupInvoker :=
  { kind := "BackupConfiguration"
    ns := "demo"
    name := "bc-1"
    deletionTimestamp := none
    hasStashFinalizer := false
    driver := ""
    repository := "repo-1"
    targetsInfo := [{ target := some { ref := witnessTargetRef1 } },
                    { target := some { ref := witnessTargetRef2 } }]
    schedule := "*/5 * * * *"
    paused := false
    labels := []
    runtimeSettings := { pod := none, container := none }
    ownerRefName := "bc-1"
    ownerRefKind := "BackupConfiguration"
    objectRef := some () }

/-- The witness invoker marked for deletion with the finalizer present. -/
def witnessDeletingInvoker : BackupInvoker :=
  { witnessInvoker with
    deletionTimestamp := some "2020-01-01T00:00:00Z"
    hasStashFinalizer := true }

/-- Source `healthyClusterEnv` with the repository missing. -/
def repoMissingEnv : ClusterEnv :=
  { healthyClusterEnv with repoLookup := fun _ => .notFound }

/-- Source `healthyClusterEnv` with the second target absent. -/
def targetMissingEnv : ClusterEnv :=
  { healthyClusterEnv with
    targetExist := fun r _ => if r = witnessTargetRef2 then .ok false else .ok true }

/-- Source `healthyClusterEnv` where probing the second target fails. -/
def targetProbeErrorEnv : ClusterEnv :=
  { healthyClusterEnv with
    targetExist := fun r _ =>
      if r = witnessTargetRef2 then .error "target probe timed out" else .ok true }

end StashController

namespace StashUtil

/-! ## Claims about `pkg/util/options.go` -/

lemma restoreLoop_first_nonempty_match (hostname : String)
    (pre post : List Rule) (r : Rule) (acc : RestoreOptions)
    (hr1 : r.TargetHosts ≠ [])
    (hr2 : r.TargetHosts.contains hostname = true)
    (hpre : ∀ p ∈ pre, p.TargetHosts = [] ∨ p.TargetHosts.contains hostname = false) :
    restoreLoop hostname acc (pre ++ r :: post) = ruleRestoreOptions hostname r := by
  induction pre generalizing acc with
  | nil =>
    have h1 : r.TargetHosts.isEmpty = false := by simp [List.isEmpty_iff, hr1]
    have h2 : hostname ∈ r.TargetHosts := by simpa using hr2
    simp [restoreLoop, h1, h2]
  | cons p pre ih =>
    rcases hpre p (by simp) with hEmpty | hContains
    · simp only [List.cons_append, restoreLoop, hEmpty, List.isEmpty_nil,
        Bool.true_or, if_true]
      exact ih _ (fun q hq => hpre q (by simp [hq]))
    · by_cases h1 : p.TargetHosts.isEmpty
      · have hpe : p.TargetHosts = [] := by simpa [List.isEmpty_iff] using h1
        simp only [List.cons_append, restoreLoop, hpe, List.isEmpty_nil,
          Bool.true_or, if_true]
        exact ih _ (fun q hq => hpre q (by simp [hq]))
      · have h1' : p.TargetHosts.isEmpty = false := by simpa using h1
        have h2 : hostname ∉ p.TargetHosts := by simpa using hContains
        rw [List.cons_append, restoreLoop]
        rw [if_neg (by simp [h1', h2])]
        exact ih _ (fun q hq => hpre q (by simp [hq]))

/-- C2: `RestoreOptionsForHost` returns the options of the first rule whose
non-empty target-host list contains the hostname, evaluating no further
rules (the suffix `post` is arbitrary); every earlier rule is either
non-matching or an empty-target-host rule, whose recorded options this rule
overrides. -/
theorem restoreOptions_first_nonempty_targetHost_rule_wins (hostname : String)
    (pre post : List Rule) (r : Rule)
    (hr1 : r.TargetHosts ≠ [])
    (hr2 : r.TargetHosts.contains hostname = true)
    (hpre : ∀ p ∈ pre, p.TargetHosts = [] ∨ p.TargetHosts.contains hostname = false) :
    RestoreOptionsForHost hostname (pre ++ r :: post) =
      ruleRestoreOptions hostname r :=
  restoreLoop_first_nonempty_match hostname pre post r _ hr1 hr2 hpre

/-- Concrete run of C2: a first empty-target-host rule records its options
but the later rule naming the host wins, and a rule after the winner is
never reached. -/
theorem restoreOptions_first_nonempty_targetHost_rule_wins_witness :
    RestoreOptionsForHost "host-1"
        [⟨"", [], ["/a"], [], [], []⟩,
         ⟨"src", ["host-1"], ["/b"], [], [], []⟩,
         ⟨"", [], ["/c"], [], [], []⟩] =
      ruleRestoreOptions "host-1" ⟨"src", ["host-1"], ["/b"], [], [], []⟩ :=
  restoreOptions_first_nonempty_targetHost_rule_wins "host-1"
    [⟨"", [], ["/a"], [], [], []⟩] [⟨"", [], ["/c"], [], [], []⟩]
    ⟨"src", ["host-1"], ["/b"], [], [], []⟩
    (by decide) (by decide) (by decide)

lemma restoreLoop_no_nonempty_match (hostname : String) (rules : List Rule)
    (acc : RestoreOptions)
    (h : ∀ r ∈ rules, r.TargetHosts ≠ [] → r.TargetHosts.contains hostname = false) :
    restoreLoop hostname acc rules =
      match lastEmptyTargetRule rules with
      | some r => ruleRestoreOptions hostname r
      | none => acc := by
  induction rules generalizing acc with
  | nil => simp [restoreLoop, lastEmptyTargetRule]
  | cons r rest ih =>
    by_cases h1 : r.TargetHosts.isEmpty
    · have hre : r.TargetHosts = [] := by simpa [List.isEmpty_iff] using h1
      have hfilter : lastEmptyTargetRule (r :: rest) =
          some (((rest.filter (fun x => x.TargetHosts.isEmpty)).getLast?).getD r) := by
        simp only [lastEmptyTargetRule, List.filter_cons, hre, List.isEmpty_nil,
          if_true]
        exact List.getLast?_cons
      simp only [restoreLoop, hre, List.isEmpty_nil, Bool.true_or, if_true]
      rw [ih _ (fun q hq => h q (by simp [hq]))]
      rw [hfilter]
      rcases hLast : lastEmptyTargetRule rest with _ | r'
      · simp only [lastEmptyTargetRule] at hLast
        simp [hLast]
      · simp only [lastEmptyTargetRule] at hLast
        simp [hLast]
    · have h1' : r.TargetHosts.isEmpty = false := by simpa using h1
      have hne : r.TargetHosts ≠ [] := by simpa [List.isEmpty_iff] using h1
      have hc : r.TargetHosts.contains hostname = false := h r (by simp) hne
      have h2 : hostname ∉ r.TargetHosts := by simpa using hc
      have hfilter : lastEmptyTargetRule (r :: rest) = lastEmptyTargetRule rest := by
        simp [lastEmptyTargetRule, List.filter_cons, h1']
      rw [restoreLoop]
      rw [if_neg (by simp [h1', h2])]
      rw [ih _ (fun q hq => h q (by simp [hq])), hfilter]

/-- C10: when no rule has a non-empty target-host list containing the
hostname, `RestoreOptionsForHost` returns the options of the last
empty-target-host rule (later empty-target-host rules overwrite earlier
ones), and the zero-value options when no rule matches at all. -/
theorem restoreOptions_last_empty_targetHost_rule (hostname : String)
    (rules : List Rule)
    (h : ∀ r ∈ rules, r.TargetHosts ≠ [] → r.TargetHosts.contains hostname = false) :
    RestoreOptionsForHost hostname rules =
      match lastEmptyTargetRule rules with
      | some r => ruleRestoreOptions hostname r
      | none => emptyRestoreOptions :=
  restoreLoop_no_nonempty_match hostname rules emptyRestoreOptions h

/-- Concrete run of C10: with two empty-target-host rules and a non-matching
explicit rule, the last empty rule's options win; with no matching rule at
all the zero value is returned. -/
theorem restoreOptions_last_empty_targetHost_rule_witness :
    RestoreOptionsForHost "host-1"
        [⟨"", [], ["/a"], [], [], []⟩,
         ⟨"", ["other-host"], ["/b"], [], [], []⟩,
         ⟨"s", [], ["/c"], [], [], []⟩] =
      ruleRestoreOptions "host-1" ⟨"s", [], ["/c"], [], [], []⟩ ∧
    RestoreOptionsForHost "host-1" [⟨"", ["other-host"], ["/b"], [], [], []⟩] =
      emptyRestoreOptions := by
  constructor
  · exact restoreOptions_last_empty_targetHost_rule "host-1"
      [⟨"", [], ["/a"], [], [], []⟩,
       ⟨"", ["other-host"], ["/b"], [], [], []⟩,
       ⟨"s", [], ["/c"], [], [], []⟩] (by decide)
  · exact restoreOptions_last_empty_targetHost_rule "host-1"
      [⟨"", ["other-host"], ["/b"], [], [], []⟩] (by decide)

/-- C9: `SetupOptionsForRepository` fails exactly when resolving the
backend's provider, container or prefix fails; a failing endpoint or region
resolution is ignored and leaves the zero value in the result. -/
theorem setupOptions_error_policy (repository : Repository)
    (extraOpt : ExtraOptions) :
    ((∃ e, SetupOptionsForRepository repository extraOpt = .error e) ↔
      ((∃ e, repository.Backend.Provider = .error e) ∨
       (∃ e, repository.Backend.Container = .error e) ∨
       (∃ e, repository.Backend.Prefix = .error e))) ∧
    (∀ o, SetupOptionsForRepository repository extraOpt = .ok o →
      (∀ e, repository.Backend.Endpoint = .error e → o.Endpoint = "") ∧
      (∀ e, repository.Backend.Region = .error e → o.Region = "")) := by
  rcases hp : repository.Backend.Provider with ep | p
  · refine ⟨by simp [SetupOptionsForRepository, hp], ?_⟩
    intro o ho
    simp [SetupOptionsForRepository, hp] at ho
  · rcases hc : repository.Backend.Container with ec | b
    · refine ⟨by simp [SetupOptionsForRepository, hp, hc], ?_⟩
      intro o ho
      simp [SetupOptionsForRepository, hp, hc] at ho
    · rcases hf : repository.Backend.Prefix with ef | f
      · refine ⟨by simp [SetupOptionsForRepository, hp, hc, hf], ?_⟩
        intro o ho
        simp [SetupOptionsForRepository, hp, hc, hf] at ho
      · refine ⟨by simp [SetupOptionsForRepository, hp, hc, hf], ?_⟩
        intro o ho
        simp only [SetupOptionsForRepository, hp, hc, hf, Except.ok.injEq] at ho
        subst ho
        refine ⟨?_, ?_⟩
        · intro e he
          simp [valueIgnoringError, he]
        · intro e he
          simp [valueIgnoringError, he]

/-- Concrete run of C9: a failing endpoint resolver still yields a success
whose `Endpoint` is the zero value. -/
theorem setupOptions_error_policy_witness :
    SetupOptionsForRepository witnessRepository witnessExtraOptions =
      .ok witnessSetupOptions ∧
    witnessSetupOptions.Endpoint = "" :=
  ⟨by rfl,
   ((setupOptions_error_policy witnessRepository witnessExtraOptions).2
      witnessSetupOptions (by rfl)).1 "endpoint is not configured" (by rfl)⟩

end StashUtil

namespace StashBackup

/-! ## Claims about the `backup` package -/

lemma runOnceBody_returns_token (env : SchedulerEnv) :
    (runOnceBody env).2.1 = true := by
  rcases hr : env.resticLookup with r | _ | e
  · by_cases hs : r.storageSecretName = ""
    · simp [runOnceBody, hr, hs]
    · rcases h2 : env.secretGet with e2 | u
      · simp [runOnceBody, hr, hs, h2]
      · rcases h3 : env.setupEnvResult with e3 | p3
        · simp [runOnceBody, hr, hs, h2, h3]
        · rcases h4 : env.initRepoErr with _ | e4
          · rcases h5 : env.createRepoCrdResult with e5 | u5
            · simp [runOnceBody, hr, hs, h2, h3, h4, h5]
            · simp [runOnceBody, hr, hs, h2, h3, h4, h5]
          · simp [runOnceBody, hr, hs, h2, h3, h4]
  · simp [runOnceBody, hr]
  · simp [runOnceBody, hr]

/-- Counterexample to C5 as stated: a firing of the check action while the
run-lock token is unavailable can return an error — the preliminary
repository lookup happens before the lock is consulted and its failure is
returned. -/
theorem runLock_skip_counterexample :
    (checkOnceForScheduler checkLookupFailureEnv false).1 =
        some "repository lookup failed" ∧
    (checkOnceForScheduler checkLookupFailureEnv false).2.2 =
        [SchedStep.repoGet] :=
  ⟨rfl, rfl⟩

/-- C5 (amended): the backup action acquires the run lock non-blockingly —
token unavailable means return nil at once with no work and nothing queued —
and releases the token on every exit path; the check action behaves the same
once its preliminary repository lookup has not failed (a not-found
repository returns nil before the lock; only a lookup error is returned). -/
theorem runLock_nonblocking_acquire (env : SchedulerEnv) :
    runOnceForScheduler env false = (none, false, []) ∧
    (runOnceForScheduler env true).2.1 = true ∧
    (∀ u, env.repositoryGet = .found u →
      checkOnceForScheduler env false = (none, false, [SchedStep.repoGet]) ∧
      (checkOnceForScheduler env true).2.1 = true ∧
      SchedStep.repoCheck ∉ (checkOnceForScheduler env false).2.2) ∧
    (env.repositoryGet = .notFound →
      checkOnceForScheduler env false = (none, false, [SchedStep.repoGet])) := by
  refine ⟨rfl, ?_, ?_, ?_⟩
  · show (runOnceBody env).2.1 = true
    exact runOnceBody_returns_token env
  · intro u hrep
    refine ⟨?_, ?_, ?_⟩
    · simp [checkOnceForScheduler, hrep]
    · simp [checkOnceForScheduler, hrep]
    · simp [checkOnceForScheduler, hrep]
  · intro hrep
    simp [checkOnceForScheduler, hrep]

/-- Concrete run of C5 (amended): with a healthy environment, a contended
firing of either action does nothing and returns nil, and an uncontended
one returns the token. -/
theorem runLock_nonblocking_acquire_witness :
    runOnceForScheduler healthySchedulerEnv false = (none, false, []) ∧
    checkOnceForScheduler healthySchedulerEnv false =
      (none, false, [SchedStep.repoGet]) ∧
    (checkOnceForScheduler healthySchedulerEnv true).2.1 = true :=
  ⟨(runLock_nonblocking_acquire healthySchedulerEnv).1,
   ((runLock_nonblocking_acquire healthySchedulerEnv).2.2.1 () rfl).1,
   ((runLock_nonblocking_acquire healthySchedulerEnv).2.2.1 () rfl).2.1⟩

/-- C6: for workload kinds that support multiple concurrent replicas the
in-process scheduler is started only through the leader-election gate with
lease duration 15s, renew deadline 10s and retry period 2s; for inherently
single-replica kinds the gate is bypassed and the scheduler starts
directly. -/
theorem backupScheduler_leader_election_gate (workloadKind : String) :
    (supportsMultipleConcurrentReplicas workloadKind = true →
      BackupScheduler workloadKind = .viaLeaderElection 15 10 2) ∧
    (supportsMultipleConcurrentReplicas workloadKind = false →
      BackupScheduler workloadKind = .direct) := by
  refine ⟨fun h => ?_, fun h => ?_⟩
  · have h' : workloadKind = KindDeployment ∨ workloadKind = KindReplicaSet ∨
        workloadKind = KindReplicationController := by
      simp only [supportsMultipleConcurrentReplicas, Bool.or_eq_true,
        decide_eq_true_eq] at h
      tauto
    unfold BackupScheduler
    rw [if_pos h']
    rfl
  · have h' : ¬(workloadKind = KindDeployment ∨ workloadKind = KindReplicaSet ∨
        workloadKind = KindReplicationController) := by
      simp only [supportsMultipleConcurrentReplicas, Bool.or_eq_false_iff,
        decide_eq_false_iff_not] at h
      tauto
    unfold BackupScheduler
    rw [if_neg h']

/-- Concrete run of C6: a Deployment goes through the 15/10/2 leader
election, a DaemonSet starts the scheduler directly. -/
theorem backupScheduler_leader_election_gate_witness :
    BackupScheduler "Deployment" = .viaLeaderElection 15 10 2 ∧
    BackupScheduler "DaemonSet" = .direct :=
  ⟨(backupScheduler_leader_election_gate "Deployment").1 (by decide),
   (backupScheduler_leader_election_gate "DaemonSet").2 (by decide)⟩

/-- C8: the check action is registered on the fixed schedule
`0 0 */3 * *` — midnight of every third day of the month, independent of
the Restic's configured backup schedule — and, when it runs with the
repository present and the lock acquired, it invokes the repository
integrity-check collaborator. -/
theorem checkAction_fixed_three_day_schedule (addFuncErr : String → Option Err)
    (resticSchedule : String) (previous : List (String × CronAction))
    (h1 : addFuncErr resticSchedule = none)
    (h2 : addFuncErr checkCronSpec = none) :
    (configureScheduler addFuncErr previous resticSchedule).2 =
      [(resticSchedule, .backupAction), (checkCronSpec, .checkAction)] ∧
    cronFields checkCronSpec = ["0", "0", "*/3", "*", "*"] ∧
    (∀ env : SchedulerEnv, env.repositoryGet = .found () →
      SchedStep.repoCheck ∈ (checkOnceForScheduler env true).2.2) := by
  refine ⟨?_, by decide, ?_⟩
  · simp [configureScheduler, h1, h2]
  · intro env henv
    simp [checkOnceForScheduler, henv]

/-- Concrete run of C8: registering with a permissive cron library yields
exactly the backup entry on the invoker's schedule and the check entry on
the fixed three-day schedule, and the healthy environment's check firing
performs the repository check. -/
theorem checkAction_fixed_three_day_schedule_witness :
    (configureScheduler (fun _ => none) [] "*/5 * * * *").2 =
      [("*/5 * * * *", CronAction.backupAction),
       (checkCronSpec, CronAction.checkAction)] ∧
    SchedStep.repoCheck ∈ (checkOnceForScheduler healthySchedulerEnv true).2.2 :=
  ⟨(checkAction_fixed_three_day_schedule (fun _ => none) "*/5 * * * *" []
      rfl rfl).1,
   (checkAction_fixed_three_day_schedule (fun _ => none) "*/5 * * * *" []
      rfl rfl).2.2 healthySchedulerEnv rfl⟩

end StashBackup

namespace StashController

/-! ## Claim C7: the trigger CronJob's suspend flag -/

/-- C7: the trigger CronJob desired by `EnsureBackupTriggeringCronJob` has
its suspend flag equal to the invoker's paused flag, whatever the prior
CronJob contents; in particular a paused invoker yields a suspended
CronJob. -/
theorem triggerCronJob_suspend_mirrors_paused (inv : BackupInvoker)
    (serviceAccountName image : String) (imagePullSecrets : List String)
    (c : CronJob) :
    (backupCronJobTransform inv serviceAccountName image imagePullSecrets
        c).suspend = some inv.paused := by
  rcases hpod : inv.runtimeSettings.pod with _ | p
  · simp [backupCronJobTransform, hpod]
  · by_cases hips : p.imagePullSecrets ≠ [] <;>
      rcases hsc : p.securityContext with _ | sc <;>
      simp [backupCronJobTransform, hpod, hips, hsc]

end StashController

namespace StashController

/-! ## Claim C3: repository and backend-secret lookup policy -/

/-- C3: under the default driver, a not-found repository sets
`RepositoryFound=False` and schedules exactly the one 5-second requeue of
the invoker's key, returning no error; any other repository lookup failure
sets `RepositoryFound=Unknown` and returns the lookup error aggregated with
any condition-write error, with no requeue; and the backend-secret lookup
follows the same policy through the `BackendSecretFound` condition. -/
theorem repoSecret_lookup_policy (env : ClusterEnv) (inv : BackupInvoker)
    (key : String)
    (hdel : inv.deletionTimestamp = none)
    (hdrv : isDefaultDriver inv.driver = true)
    (hkind : inv.kind = ResourceKindBackupConfiguration)
    (haf : env.addFinalizerErr = none) :
    (env.repoLookup inv.repository = .notFound →
      env.condFail ⟨.repositoryFound, .cfalse⟩ = none →
      (applyBackupInvokerReconciliationLogic env inv key).1 = none ∧
      (applyBackupInvokerReconciliationLogic env inv key).2.requeues =
        [(key, 5)] ∧
      Cond.mk .repositoryFound .cfalse ∈
        (applyBackupInvokerReconciliationLogic env inv key).2.conds) ∧
    (∀ e, env.repoLookup inv.repository = .lookupError e →
      (applyBackupInvokerReconciliationLogic env inv key).1 =
        aggregate [some e, env.condFail ⟨.repositoryFound, .cunknown⟩] ∧
      (applyBackupInvokerReconciliationLogic env inv key).2.requeues = [] ∧
      (env.condFail ⟨.repositoryFound, .cunknown⟩ = none →
        Cond.mk .repositoryFound .cunknown ∈
          (applyBackupInvokerReconciliationLogic env inv key).2.conds)) ∧
    (∀ repo, env.repoLookup inv.repository = .found repo →
      env.condFail ⟨.repositoryFound, .ctrue⟩ = none →
      (env.secretLookup repo.ns repo.backendSecretName = .notFound →
        env.condFail ⟨.backendSecretFound "", .cfalse⟩ = none →
        (applyBackupInvokerReconciliationLogic env inv key).1 = none ∧
        (applyBackupInvokerReconciliationLogic env inv key).2.requeues =
          [(key, 5)] ∧
        Cond.mk (.backendSecretFound "") .cfalse ∈
          (applyBackupInvokerReconciliationLogic env inv key).2.conds) ∧
      (∀ e, env.secretLookup repo.ns repo.backendSecretName = .lookupError e →
        (applyBackupInvokerReconciliationLogic env inv key).1 =
          aggregate [some e, env.condFail ⟨.backendSecretFound "", .cunknown⟩] ∧
        (applyBackupInvokerReconciliationLogic env inv key).2.requeues = [] ∧
        (env.condFail ⟨.backendSecretFound "", .cunknown⟩ = none →
          Cond.mk (.backendSecretFound "") .cunknown ∈
            (applyBackupInvokerReconciliationLogic env inv key).2.conds))) := by
  refine ⟨?_, ?_, ?_⟩
  · intro hrepo hcond
    simp [applyBackupInvokerReconciliationLogic, reconcileAfterFinalizer,
      setCondition, requeueInvoker, initTrace, hdel, hdrv, hkind, haf, hrepo,
      hcond]
  · intro e hrepo
    refine ⟨?_, ?_, ?_⟩
    · simp [applyBackupInvokerReconciliationLogic, reconcileAfterFinalizer,
        setCondition, initTrace, hdel, hdrv, haf, hrepo]
      rcases hcond : env.condFail ⟨.repositoryFound, .cunknown⟩ with _ | e2 <;>
        simp [hcond]
    · simp [applyBackupInvokerReconciliationLogic, reconcileAfterFinalizer,
        setCondition, initTrace, hdel, hdrv, haf, hrepo]
      rcases hcond : env.condFail ⟨.repositoryFound, .cunknown⟩ with _ | e2 <;>
        simp [hcond]
    · intro hcond
      simp [applyBackupInvokerReconciliationLogic, reconcileAfterFinalizer,
        setCondition, initTrace, hdel, hdrv, haf, hrepo, hcond]
  · intro repo hrepo hcondt
    refine ⟨?_, ?_⟩
    · intro hsec hcond
      simp [applyBackupInvokerReconciliationLogic, reconcileAfterFinalizer,
        setCondition, requeueInvoker, initTrace, hdel, hdrv, hkind, haf, hrepo,
        hcondt, hsec, hcond]
    · intro e hsec
      refine ⟨?_, ?_, ?_⟩
      · simp [applyBackupInvokerReconciliationLogic, reconcileAfterFinalizer,
          setCondition, initTrace, hdel, hdrv, haf, hrepo, hcondt, hsec]
        rcases hcond : env.condFail ⟨.backendSecretFound "", .cunknown⟩ with _ | e2 <;>
          simp [hcond]
      · simp [applyBackupInvokerReconciliationLogic, reconcileAfterFinalizer,
          setCondition, initTrace, hdel, hdrv, haf, hrepo, hcondt, hsec]
        rcases hcond : env.condFail ⟨.backendSecretFound "", .cunknown⟩ with _ | e2 <;>
          simp [hcond]
      · intro hcond
        simp [applyBackupInvokerReconciliationLogic, reconcileAfterFinalizer,
          setCondition, initTrace, hdel, hdrv, haf, hrepo, hcondt, hsec, hcond]

end StashController

namespace StashController

/-! ## Claim C4: deletion path removes the finalizer only after cleanup -/

lemma aggregate_two_ne_none (e : Err) (x : Option Err) :
    aggregate [some e, x] ≠ none := by
  cases x <;> simp [aggregate, List.filterMap_cons]

lemma handleWorkloadFailure_fst_ne_none (env : ClusterEnv)
    (oref : Option Unit) (err : Err) (st : RecTrace) :
    (handleWorkloadControllerTriggerFailure env oref err st).1 ≠ none := by
  rcases oref with _ | u
  · exact aggregate_two_ne_none err (some refNilError)
  · exact aggregate_two_ne_none err env.eventWriteErr

lemma handleWorkloadFailure_finalizer (env : ClusterEnv) (oref : Option Unit)
    (err : Err) (st : RecTrace) :
    (handleWorkloadControllerTriggerFailure env oref err st).2.finalizer =
      st.finalizer := by
  rcases oref with _ | u <;>
    simp [handleWorkloadControllerTriggerFailure, writeWarningEvent]

lemma targetRefs_cons_some (ti : TargetInfo) (t : BackupTarget)
    (rest : List TargetInfo) (h : ti.target = some t) :
    targetRefs (ti :: rest) = t.ref :: targetRefs rest := by
  simp [targetRefs, List.filterMap_cons, h]

lemma targetRefs_cons_none (ti : TargetInfo) (rest : List TargetInfo)
    (h : ti.target = none) :
    targetRefs (ti :: rest) = targetRefs rest := by
  simp [targetRefs, List.filterMap_cons, h]

lemma sidecarDeletionLoop_finalizer (env : ClusterEnv) (oref : Option Unit)
    (l : List TargetInfo) : ∀ st : RecTrace,
    (sidecarDeletionLoop env oref l st).2.finalizer = st.finalizer := by
  induction l with
  | nil => intro st; rfl
  | cons ti rest ih =>
    intro st
    rcases hti : ti.target with _ | t
    · simp only [sidecarDeletionLoop, hti]
      exact ih st
    · rcases hw : env.workloadQueueErr t.ref with _ | err
      · simp only [sidecarDeletionLoop, hti, notifyWorkloadQueue, hw]
        exact ih _
      · simp only [sidecarDeletionLoop, hti, notifyWorkloadQueue, hw]
        exact handleWorkloadFailure_finalizer env oref err _

lemma sidecarDeletionLoop_err_iff (env : ClusterEnv) (oref : Option Unit)
    (l : List TargetInfo) : ∀ st : RecTrace,
    ((sidecarDeletionLoop env oref l st).1 = none ↔
      ∀ r ∈ targetRefs l, env.workloadQueueErr r = none) := by
  induction l with
  | nil => intro st; simp [sidecarDeletionLoop, targetRefs]
  | cons ti rest ih =>
    intro st
    rcases hti : ti.target with _ | t
    · simp only [sidecarDeletionLoop, hti]
      rw [targetRefs_cons_none ti rest hti]
      exact ih st
    · rcases hw : env.workloadQueueErr t.ref with _ | err
      · simp only [sidecarDeletionLoop, hti, notifyWorkloadQueue, hw]
        rw [targetRefs_cons_some ti t rest hti, List.forall_mem_cons, ih _]
        simp [hw]
      · simp only [sidecarDeletionLoop, hti, notifyWorkloadQueue, hw]
        refine ⟨fun h => absurd h (handleWorkloadFailure_fst_ne_none env oref err _),
          fun h => ?_⟩
        exfalso
        have h2 := h t.ref (by rw [targetRefs_cons_some ti t rest hti]; simp)
        rw [hw] at h2
        exact Option.noConfusion h2

lemma ensureCronJobDeleted_fst (env : ClusterEnv) (inv : BackupInvoker)
    (st : RecTrace) :
    (ensureBackupTriggeringCronJobDeleted env inv st).1 =
      cronJobUnownResult env inv := by
  rcases h : env.cronJobLookup (getBackupCronJobName inv.name) with u | _ | e
  · rcases h2 : env.cronJobPatchErr with _ | e2 <;>
      simp [ensureBackupTriggeringCronJobDeleted, cronJobUnownResult, h, h2]
  · simp [ensureBackupTriggeringCronJobDeleted, cronJobUnownResult, h]
  · simp [ensureBackupTriggeringCronJobDeleted, cronJobUnownResult, h]

lemma ensureCronJobDeleted_finalizer (env : ClusterEnv) (inv : BackupInvoker)
    (st : RecTrace) :
    (ensureBackupTriggeringCronJobDeleted env inv st).2.finalizer =
      st.finalizer := by
  rcases h : env.cronJobLookup (getBackupCronJobName inv.name) with u | _ | e
  · rcases h2 : env.cronJobPatchErr with _ | e2 <;>
      simp [ensureBackupTriggeringCronJobDeleted, h, h2]
  · simp [ensureBackupTriggeringCronJobDeleted, h]
  · simp [ensureBackupTriggeringCronJobDeleted, h]

/-- C4: on a deleting invoker with the finalizer present, the pass removes
the finalizer exactly when the sidecar-removal notification of every target,
the trigger-CronJob un-owning, the cluster-role-binding deletion and the
finalizer removal itself all succeed, and it returns nil exactly then; any
failing step leaves the finalizer present and returns an error, so a later
pass re-attempts the same steps. -/
theorem deletion_finalizer_gate (env : ClusterEnv) (inv : BackupInvoker)
    (key : String) (d : String)
    (hdel : inv.deletionTimestamp = some d)
    (hfin : inv.hasStashFinalizer = true) :
    ((applyBackupInvokerReconciliationLogic env inv key).1 = none ↔
      ((∀ r ∈ targetRefs inv.targetsInfo, env.workloadQueueErr r = none) ∧
        cronJobUnownResult env inv = none ∧ env.crbDeleteErr = none ∧
        env.removeFinalizerErr = none)) ∧
    ((applyBackupInvokerReconciliationLogic env inv key).2.finalizer = false ↔
      ((∀ r ∈ targetRefs inv.targetsInfo, env.workloadQueueErr r = none) ∧
        cronJobUnownResult env inv = none ∧ env.crbDeleteErr = none ∧
        env.removeFinalizerErr = none)) := by
  have hiff := sidecarDeletionLoop_err_iff env inv.objectRef inv.targetsInfo
    (initTrace inv)
  have hfinl := sidecarDeletionLoop_finalizer env inv.objectRef inv.targetsInfo
    (initTrace inv)
  rcases hL : sidecarDeletionLoop env inv.objectRef inv.targetsInfo
      (initTrace inv) with ⟨oe, st1⟩
  rw [hL] at hiff hfinl
  have hst1fin : st1.finalizer = true := by
    simpa [initTrace, hfin] using hfinl
  simp only [applyBackupInvokerReconciliationLogic, hdel, Option.isSome_some,
    if_true, hfin, hL]
  cases oe with
  | some e =>
    have hbad : ¬ ∀ r ∈ targetRefs inv.targetsInfo,
        env.workloadQueueErr r = none := by
      intro hall
      have := hiff.mpr hall
      simp at this
    constructor
    · exact ⟨fun h => absurd h (by simp), fun h => absurd h.1 hbad⟩
    · exact ⟨fun h => absurd h (by simp [hst1fin]), fun h => absurd h.1 hbad⟩
  | none =>
    have hall : ∀ r ∈ targetRefs inv.targetsInfo,
        env.workloadQueueErr r = none := hiff.mp rfl
    rcases hU : ensureBackupTriggeringCronJobDeleted env inv st1 with ⟨ue, st2⟩
    have hUe : ue = cronJobUnownResult env inv := by
      rw [← ensureCronJobDeleted_fst env inv st1, hU]
    have hst2fin : st2.finalizer = true := by
      have := ensureCronJobDeleted_finalizer env inv st1
      rw [hU] at this
      simpa [hst1fin] using this
    simp only [hU]
    cases ue with
    | some e =>
      constructor
      · exact ⟨fun h => absurd h (by simp),
          fun h => absurd h.2.1 (by rw [← hUe]; simp)⟩
      · exact ⟨fun h => absurd h (by simp [hst2fin]),
          fun h => absurd h.2.1 (by rw [← hUe]; simp)⟩
    | none =>
      rcases hc : env.crbDeleteErr with _ | e
      · rcases hr : env.removeFinalizerErr with _ | e2
        · constructor
          · exact ⟨fun _ => ⟨hall, hUe.symm, rfl, rfl⟩, fun _ => rfl⟩
          · exact ⟨fun _ => ⟨hall, hUe.symm, rfl, rfl⟩, fun _ => rfl⟩
        · constructor
          · exact ⟨fun h => absurd h (by simp),
              fun h => absurd h.2.2.2 (by simp)⟩
          · exact ⟨fun h => absurd h (by simp [hst2fin]),
              fun h => absurd h.2.2.2 (by simp)⟩
      · constructor
        · exact ⟨fun h => absurd h (by simp),
            fun h => absurd h.2.2.1 (by simp)⟩
        · exact ⟨fun h => absurd h (by simp [hst2fin]),
            fun h => absurd h.2.2.1 (by simp)⟩

end StashController

namespace StashController

/-! ## Witnesses for C3 and C4 -/

/-- Concrete run of C3: with the repository missing, the pass returns nil,
writes `RepositoryFound=False` and schedules the single 5-second requeue. -/
theorem repoSecret_lookup_policy_witness :
    (applyBackupInvokerReconciliationLogic repoMissingEnv witnessInvoker
        "demo/bc-1").1 = none ∧
    (applyBackupInvokerReconciliationLogic repoMissingEnv witnessInvoker
        "demo/bc-1").2.requeues = [("demo/bc-1", 5)] ∧
    Cond.mk .repositoryFound .cfalse ∈
      (applyBackupInvokerReconciliationLogic repoMissingEnv witnessInvoker
        "demo/bc-1").2.conds :=
  (repoSecret_lookup_policy repoMissingEnv witnessInvoker "demo/bc-1"
    rfl (by decide) rfl rfl).1 rfl rfl

/-- Concrete run of C4: with every cleanup collaborator succeeding, the
deleting invoker's pass returns nil and the finalizer ends up removed. -/
theorem deletion_finalizer_gate_witness :
    (applyBackupInvokerReconciliationLogic healthyClusterEnv
        witnessDeletingInvoker "demo/bc-1").1 = none ∧
    (applyBackupInvokerReconciliationLogic healthyClusterEnv
        witnessDeletingInvoker "demo/bc-1").2.finalizer = false :=
  ⟨(deletion_finalizer_gate healthyClusterEnv witnessDeletingInvoker
      "demo/bc-1" "2020-01-01T00:00:00Z" rfl rfl).1.mpr
      ⟨fun _ _ => rfl, rfl, rfl, rfl⟩,
   (deletion_finalizer_gate healthyClusterEnv witnessDeletingInvoker
      "demo/bc-1" "2020-01-01T00:00:00Z" rfl rfl).2.mpr
      ⟨fun _ _ => rfl, rfl, rfl, rfl⟩⟩

end StashController

namespace StashController

/-! ## Claim C1: missing targets defer the trigger schedule -/

lemma handleWorkloadFailure_trace (env : ClusterEnv) (oref : Option Unit)
    (err : Err) (st : RecTrace) :
    (handleWorkloadControllerTriggerFailure env oref err st).2.requeues =
      st.requeues ∧
    (handleWorkloadControllerTriggerFailure env oref err
        st).2.cronJobEnsureAttempted = st.cronJobEnsureAttempted ∧
    (handleWorkloadControllerTriggerFailure env oref err st).2.conds =
      st.conds := by
  rcases oref with _ | u <;>
    simp [handleWorkloadControllerTriggerFailure, writeWarningEvent]

lemma targetLoop_stable (env : ClusterEnv) (inv : BackupInvoker)
    (l : List TargetInfo) : ∀ (m : Bool) (st : RecTrace),
    (targetLoop env inv l m st).2.2.requeues = st.requeues ∧
    (targetLoop env inv l m st).2.2.cronJobEnsureAttempted =
      st.cronJobEnsureAttempted ∧
    ∀ c ∈ st.conds, c ∈ (targetLoop env inv l m st).2.2.conds := by
  induction l with
  | nil => intro m st; exact ⟨rfl, rfl, fun _ hc => hc⟩
  | cons ti rest ih =>
    intro m st
    rcases hti : ti.target with _ | t
    · simp only [targetLoop, hti]
      exact ih m st
    · rcases hx : env.targetExist t.ref inv.ns with e | b
      · simp only [targetLoop, hti, hx]
        rcases hcf : env.condFail ⟨.backupTargetFound t.ref, .cunknown⟩ with _ | ce
        · simp only [setCondition, hcf]
          exact ⟨by simp, by simp, fun c hc => by simp [hc]⟩
        · simp only [setCondition, hcf]
          exact ⟨by simp, by simp, fun _ hc => by simp [hc]⟩
      · cases b
        · simp only [targetLoop, hti, hx]
          rcases hcf : env.condFail ⟨.backupTargetFound t.ref, .cfalse⟩ with _ | ce
          · simp only [setCondition, hcf]
            refine ⟨(ih true _).1, (ih true _).2.1, fun c hc => ?_⟩
            exact (ih true _).2.2 c (by simp [hc])
          · simp only [setCondition, hcf]
            exact ⟨by simp, by simp, fun _ hc => by simp [hc]⟩
        · simp only [targetLoop, hti, hx]
          rcases hcf : env.condFail ⟨.backupTargetFound t.ref, .ctrue⟩ with _ | ce
          · simp only [setCondition, hcf]
            by_cases hside : isDefaultDriver inv.driver ∧
                backupModel t.ref.kind = ModelSidecar
            · rw [if_pos hside]
              rcases hwq : env.workloadQueueErr t.ref with _ | werr
              · simp only [notifyWorkloadQueue, hwq]
                refine ⟨(ih m _).1, (ih m _).2.1, fun c hc => ?_⟩
                exact (ih m _).2.2 c (by simp [hc])
              · simp only [notifyWorkloadQueue, hwq]
                obtain ⟨hh1, hh2, hh3⟩ := handleWorkloadFailure_trace env
                  inv.objectRef werr
                  { st with
                    conds := st.conds ++ [⟨.backupTargetFound t.ref, .ctrue⟩]
                    notified := st.notified ++ [t.ref] }
                refine ⟨by rw [hh1], by rw [hh2], fun c hc => by
                  rw [hh3]; simp [hc]⟩
            · rw [if_neg hside]
              refine ⟨(ih m _).1, (ih m _).2.1, fun c hc => ?_⟩
              exact (ih m _).2.2 c (by simp [hc])
          · simp only [setCondition, hcf]
            exact ⟨by simp, by simp, fun _ hc => by simp [hc]⟩

lemma any_probedMissing_iff (env : ClusterEnv) (inv : BackupInvoker)
    (l : List TargetInfo) :
    l.any (probedMissing env inv) = true ↔
      ∃ r ∈ targetRefs l, env.targetExist r inv.ns = Except.ok false := by
  induction l with
  | nil => simp [targetRefs]
  | cons ti rest ih =>
    rcases hti : ti.target with _ | t
    · have hpm : probedMissing env inv ti = false := by simp [probedMissing, hti]
      rw [List.any_cons, targetRefs_cons_none ti rest hti]
      simp [hpm, ih]
    · rw [List.any_cons, targetRefs_cons_some ti t rest hti]
      rcases hx : env.targetExist t.ref inv.ns with e | b
      · have hpm : probedMissing env inv ti = false := by
          simp [probedMissing, hti, hx]
        rw [hpm]
        simp only [Bool.false_or, ih]
        constructor
        · rintro ⟨r, hr, hrf⟩
          exact ⟨r, by simp [hr], hrf⟩
        · rintro ⟨r, hr, hrf⟩
          rcases List.mem_cons.mp hr with rfl | hr'
          · rw [hx] at hrf; exact absurd hrf (by simp)
          · exact ⟨r, hr', hrf⟩
      · cases b
        · have hpm : probedMissing env inv ti = true := by
            simp [probedMissing, hti, hx]
          rw [hpm]
          simp only [Bool.true_or, true_iff]
          exact ⟨t.ref, by simp, hx⟩
        · have hpm : probedMissing env inv ti = false := by
            simp [probedMissing, hti, hx]
          rw [hpm]
          simp only [Bool.false_or, ih]
          constructor
          · rintro ⟨r, hr, hrf⟩
            exact ⟨r, by simp [hr], hrf⟩
          · rintro ⟨r, hr, hrf⟩
            rcases List.mem_cons.mp hr with rfl | hr'
            · rw [hx] at hrf; exact absurd hrf (by simp)
            · exact ⟨r, hr', hrf⟩

end StashController

namespace StashController

lemma targetLoop_all_ok (env : ClusterEnv) (inv : BackupInvoker)
    (hc : ∀ c, env.condFail c = none)
    (hw : ∀ r, env.workloadQueueErr r = none)
    (l : List TargetInfo) : ∀ (m : Bool) (st : RecTrace),
    (∀ r ∈ targetRefs l, ∃ b, env.targetExist r inv.ns = Except.ok b) →
    (targetLoop env inv l m st).1 = none ∧
    (targetLoop env inv l m st).2.1 = (m || l.any (probedMissing env inv)) ∧
    (∀ r ∈ targetRefs l, env.targetExist r inv.ns = Except.ok true →
      Cond.mk (.backupTargetFound r) .ctrue ∈
        (targetLoop env inv l m st).2.2.conds) ∧
    (∀ r ∈ targetRefs l, env.targetExist r inv.ns = Except.ok false →
      Cond.mk (.backupTargetFound r) .cfalse ∈
        (targetLoop env inv l m st).2.2.conds) := by
  induction l with
  | nil =>
    intro m st _
    refine ⟨rfl, by simp [targetLoop], ?_, ?_⟩ <;> simp [targetRefs]
  | cons ti rest ih =>
    intro m st hp
    rcases hti : ti.target with _ | t
    · have hrefs := targetRefs_cons_none ti rest hti
      rw [hrefs] at hp
      obtain ⟨h1, h2, h3, h4⟩ := ih m st hp
      have hpm : probedMissing env inv ti = false := by simp [probedMissing, hti]
      refine ⟨?_, ?_, ?_, ?_⟩
      · simpa [targetLoop, hti] using h1
      · simp only [targetLoop, hti, List.any_cons, hpm, Bool.false_or]
        exact h2
      · rw [hrefs]
        simpa [targetLoop, hti] using h3
      · rw [hrefs]
        simpa [targetLoop, hti] using h4
    · have hrefs := targetRefs_cons_some ti t rest hti
      obtain ⟨b, hb⟩ := hp t.ref (by rw [hrefs]; simp)
      have hpRest : ∀ r ∈ targetRefs rest, ∃ b,
          env.targetExist r inv.ns = Except.ok b := by
        intro r hr
        exact hp r (by rw [hrefs]; simp [hr])
      cases b
      · have hred : targetLoop env inv (ti :: rest) m st =
            targetLoop env inv rest true
              { st with conds := st.conds ++
                  [Cond.mk (.backupTargetFound t.ref) .cfalse] } := by
          simp only [targetLoop, hti, hb, setCondition, hc]
        obtain ⟨h1, h2, h3, h4⟩ := ih true _ hpRest
        have hstab := targetLoop_stable env inv rest true
          { st with conds := st.conds ++
              [Cond.mk (.backupTargetFound t.ref) .cfalse] }
        have hpm : probedMissing env inv ti = true := by
          simp [probedMissing, hti, hb]
        refine ⟨?_, ?_, ?_, ?_⟩
        · rw [hred]; exact h1
        · rw [hred, h2, List.any_cons, hpm]
          simp
        · intro r hr hrt
          rw [hred]
          rw [hrefs] at hr
          rcases List.mem_cons.mp hr with rfl | hr'
          · exact absurd (hb.symm.trans hrt) (by simp)
          · exact h3 r hr' hrt
        · intro r hr hrf
          rw [hred]
          rw [hrefs] at hr
          rcases List.mem_cons.mp hr with rfl | hr'
          · exact hstab.2.2 _ (by simp)
          · exact h4 r hr' hrf
      · have hpm : probedMissing env inv ti = false := by
          simp [probedMissing, hti, hb]
        by_cases hside : isDefaultDriver inv.driver ∧
            backupModel t.ref.kind = ModelSidecar
        · have hred : targetLoop env inv (ti :: rest) m st =
              targetLoop env inv rest m
                { st with
                  conds := st.conds ++ [Cond.mk (.backupTargetFound t.ref) .ctrue]
                  notified := st.notified ++ [t.ref] } := by
            simp only [targetLoop, hti, hb, setCondition, hc]
            rw [if_pos hside]
            simp only [notifyWorkloadQueue, hw]
          obtain ⟨h1, h2, h3, h4⟩ := ih m _ hpRest
          have hstab := targetLoop_stable env inv rest m
            { st with
              conds := st.conds ++ [Cond.mk (.backupTargetFound t.ref) .ctrue]
              notified := st.notified ++ [t.ref] }
          refine ⟨?_, ?_, ?_, ?_⟩
          · rw [hred]; exact h1
          · rw [hred, h2, List.any_cons, hpm]
            simp
          · intro r hr hrt
            rw [hred]
            rw [hrefs] at hr
            rcases List.mem_cons.mp hr with rfl | hr'
            · exact hstab.2.2 _ (by simp)
            · exact h3 r hr' hrt
          · intro r hr hrf
            rw [hred]
            rw [hrefs] at hr
            rcases List.mem_cons.mp hr with rfl | hr'
            · exact absurd (hb.symm.trans hrf) (by simp)
            · exact h4 r hr' hrf
        · have hred : targetLoop env inv (ti :: rest) m st =
              targetLoop env inv rest m
                { st with conds := st.conds ++
                    [Cond.mk (.backupTargetFound t.ref) .ctrue] } := by
            simp only [targetLoop, hti, hb, setCondition, hc]
            rw [if_neg hside]
          obtain ⟨h1, h2, h3, h4⟩ := ih m _ hpRest
          have hstab := targetLoop_stable env inv rest m
            { st with conds := st.conds ++
                [Cond.mk (.backupTargetFound t.ref) .ctrue] }
          refine ⟨?_, ?_, ?_, ?_⟩
          · rw [hred]; exact h1
          · rw [hred, h2, List.any_cons, hpm]
            simp
          · intro r hr hrt
            rw [hred]
            rw [hrefs] at hr
            rcases List.mem_cons.mp hr with rfl | hr'
            · exact hstab.2.2 _ (by simp)
            · exact h3 r hr' hrt
          · intro r hr hrf
            rw [hred]
            rw [hrefs] at hr
            rcases List.mem_cons.mp hr with rfl | hr'
            · exact absurd (hb.symm.trans hrf) (by simp)
            · exact h4 r hr' hrf

end StashController

namespace StashController

lemma targetLoop_first_error (env : ClusterEnv) (inv : BackupInvoker)
    (hc : ∀ c, env.condFail c = none)
    (hw : ∀ r, env.workloadQueueErr r = none)
    (l1 : List TargetInfo) : ∀ (ti : TargetInfo) (l2 : List TargetInfo)
      (t : BackupTarget) (e : Err) (m : Bool) (st : RecTrace),
    ti.target = some t →
    env.targetExist t.ref inv.ns = .error e →
    (∀ r ∈ targetRefs l1, ∃ b, env.targetExist r inv.ns = Except.ok b) →
    (targetLoop env inv (l1 ++ ti :: l2) m st).1 = some e ∧
    Cond.mk (.backupTargetFound t.ref) .cunknown ∈
      (targetLoop env inv (l1 ++ ti :: l2) m st).2.2.conds ∧
    (∀ c ∈ (targetLoop env inv (l1 ++ ti :: l2) m st).2.2.conds,
      c ∈ st.conds ∨ (∃ r ∈ targetRefs l1, c.type = .backupTargetFound r) ∨
      c = Cond.mk (.backupTargetFound t.ref) .cunknown) := by
  induction l1 with
  | nil =>
    intro ti l2 t e m st hti hx _
    have hred : targetLoop env inv ([] ++ ti :: l2) m st =
        (aggregate [some e, none], m,
         { st with conds := st.conds ++
             [Cond.mk (.backupTargetFound t.ref) .cunknown] }) := by
      simp only [List.nil_append, targetLoop, hti, hx, setCondition, hc]
    rw [hred]
    refine ⟨rfl, by simp, ?_⟩
    intro c hcm
    rcases List.mem_append.mp hcm with h | h
    · exact Or.inl h
    · exact Or.inr (Or.inr (by simpa using h))
  | cons p rest ih =>
    intro ti l2 t e m st hti hx hp
    rcases htp : p.target with _ | tp
    · have hred : targetLoop env inv ((p :: rest) ++ ti :: l2) m st =
          targetLoop env inv (rest ++ ti :: l2) m st := by
        simp only [List.cons_append, targetLoop, htp]
        rfl
      have hp' : ∀ r ∈ targetRefs rest, ∃ b,
          env.targetExist r inv.ns = Except.ok b := by
        intro r hr
        exact hp r (by rw [targetRefs_cons_none p rest htp]; exact hr)
      obtain ⟨h1, h2, h3⟩ := ih ti l2 t e m st hti hx hp'
      refine ⟨by rw [hred]; exact h1, by rw [hred]; exact h2, ?_⟩
      intro c hcm
      rw [hred] at hcm
      rcases h3 c hcm with h | ⟨r, hr, hty⟩ | h
      · exact Or.inl h
      · exact Or.inr (Or.inl ⟨r, by rw [targetRefs_cons_none p rest htp]; exact hr, hty⟩)
      · exact Or.inr (Or.inr h)
    · obtain ⟨b, hb⟩ := hp tp.ref (by rw [targetRefs_cons_some p tp rest htp]; simp)
      have hp' : ∀ r ∈ targetRefs rest, ∃ b,
          env.targetExist r inv.ns = Except.ok b := by
        intro r hr
        exact hp r (by rw [targetRefs_cons_some p tp rest htp]; simp [hr])
      have hmemp : tp.ref ∈ targetRefs (p :: rest) := by
        rw [targetRefs_cons_some p tp rest htp]; simp
      have hsub : ∀ r, r ∈ targetRefs rest → r ∈ targetRefs (p :: rest) := by
        intro r hr
        rw [targetRefs_cons_some p tp rest htp]; simp [hr]
      cases b
      · have hred : targetLoop env inv ((p :: rest) ++ ti :: l2) m st =
            targetLoop env inv (rest ++ ti :: l2) true
              { st with conds := st.conds ++
                  [Cond.mk (.backupTargetFound tp.ref) .cfalse] } := by
          simp only [List.cons_append, targetLoop, htp, hb, setCondition, hc]
          rfl
        obtain ⟨h1, h2, h3⟩ := ih ti l2 t e true _ hti hx hp'
        refine ⟨by rw [hred]; exact h1, by rw [hred]; exact h2, ?_⟩
        intro c hcm
        rw [hred] at hcm
        rcases h3 c hcm with h | ⟨r, hr, hty⟩ | h
        · rcases List.mem_append.mp h with h' | h'
          · exact Or.inl h'
          · refine Or.inr (Or.inl ⟨tp.ref, hmemp, ?_⟩)
            have : c = Cond.mk (.backupTargetFound tp.ref) .cfalse := by simpa using h'
            rw [this]
        · exact Or.inr (Or.inl ⟨r, hsub r hr, hty⟩)
        · exact Or.inr (Or.inr h)
      · by_cases hside : isDefaultDriver inv.driver ∧
            backupModel tp.ref.kind = ModelSidecar
        · have hred : targetLoop env inv ((p :: rest) ++ ti :: l2) m st =
              targetLoop env inv (rest ++ ti :: l2) m
                { st with
                  conds := st.conds ++ [Cond.mk (.backupTargetFound tp.ref) .ctrue]
                  notified := st.notified ++ [tp.ref] } := by
            simp only [List.cons_append, targetLoop, htp, hb, setCondition, hc]
            rw [if_pos hside]
            simp only [notifyWorkloadQueue, hw]
            rfl
          obtain ⟨h1, h2, h3⟩ := ih ti l2 t e m _ hti hx hp'
          refine ⟨by rw [hred]; exact h1, by rw [hred]; exact h2, ?_⟩
          intro c hcm
          rw [hred] at hcm
          rcases h3 c hcm with h | ⟨r, hr, hty⟩ | h
          · rcases List.mem_append.mp h with h' | h'
            · exact Or.inl h'
            · refine Or.inr (Or.inl ⟨tp.ref, hmemp, ?_⟩)
              have : c = Cond.mk (.backupTargetFound tp.ref) .ctrue := by simpa using h'
              rw [this]
          · exact Or.inr (Or.inl ⟨r, hsub r hr, hty⟩)
          · exact Or.inr (Or.inr h)
        · have hred : targetLoop env inv ((p :: rest) ++ ti :: l2) m st =
              targetLoop env inv (rest ++ ti :: l2) m
                { st with conds := st.conds ++
                    [Cond.mk (.backupTargetFound tp.ref) .ctrue] } := by
            simp only [List.cons_append, targetLoop, htp, hb, setCondition, hc]
            rw [if_neg hside]
            rfl
          obtain ⟨h1, h2, h3⟩ := ih ti l2 t e m _ hti hx hp'
          refine ⟨by rw [hred]; exact h1, by rw [hred]; exact h2, ?_⟩
          intro c hcm
          rw [hred] at hcm
          rcases h3 c hcm with h | ⟨r, hr, hty⟩ | h
          · rcases List.mem_append.mp h with h' | h'
            · exact Or.inl h'
            · refine Or.inr (Or.inl ⟨tp.ref, hmemp, ?_⟩)
              have : c = Cond.mk (.backupTargetFound tp.ref) .ctrue := by simpa using h'
              rw [this]
          · exact Or.inr (Or.inl ⟨r, hsub r hr, hty⟩)
          · exact Or.inr (Or.inr h)

end StashController

namespace StashController

lemma targetRefs_append (a b : List TargetInfo) :
    targetRefs (a ++ b) = targetRefs a ++ targetRefs b := by
  simp [targetRefs, List.filterMap_append]

lemma reconcile_reaches_targetPhase (env : ClusterEnv) (inv : BackupInvoker)
    (key : String)
    (hdel : inv.deletionTimestamp = none)
    (haf : env.addFinalizerErr = none)
    (hcond : ∀ c, env.condFail c = none)
    (hpre : isDefaultDriver inv.driver = true →
      ∃ repo, env.repoLookup inv.repository = .found repo ∧
        env.secretLookup repo.ns repo.backendSecretName = .found ()) :
    ∃ st : RecTrace,
      applyBackupInvokerReconciliationLogic env inv key =
        targetPhase env inv key st ∧
      st.requeues = [] ∧
      st.cronJobEnsureAttempted = false ∧
      ∀ c ∈ st.conds, ∀ r s, c ≠ Cond.mk (.backupTargetFound r) s := by
  by_cases hdrv : isDefaultDriver inv.driver = true
  · obtain ⟨repo, hrepo, hsec⟩ := hpre hdrv
    refine ⟨{ conds := [Cond.mk .repositoryFound .ctrue,
                        Cond.mk (.backendSecretFound repo.backendSecretName) .ctrue],
              requeues := [], notified := [], cronJobEnsureAttempted := false,
              cronJobEnsured := false, cronJobUnowned := false,
              crbDeleted := false, finalizer := true, events := 0 },
            ?_, rfl, rfl, ?_⟩
    · simp [applyBackupInvokerReconciliationLogic, hdel, haf,
        reconcileAfterFinalizer, hdrv, hrepo, setCondition, hcond, hsec,
        initTrace]
    · intro c hcm r s
      rcases (by simpa using hcm :
          c = Cond.mk .repositoryFound .ctrue ∨
          c = Cond.mk (.backendSecretFound repo.backendSecretName) .ctrue) with
        rfl | rfl <;> simp
  · have hdrv' : isDefaultDriver inv.driver = false := by simpa using hdrv
    refine ⟨{ initTrace inv with finalizer := true }, ?_, rfl, rfl, ?_⟩
    · simp [applyBackupInvokerReconciliationLogic, hdel, haf,
        reconcileAfterFinalizer, hdrv', initTrace]
    · intro c hcm r s
      simp [initTrace] at hcm

/-- C1: on a non-deleting invoker whose dependency phase succeeds and whose
condition writes and sidecar notifications succeed: (a) if every target's
existence probe answers and at least one target is missing, the pass returns
nil, never attempts the trigger CronJob, schedules exactly one 5-second
requeue of the invoker's key, and writes `BackupTargetFound` True for every
existing and False for every missing target; (b) if a target's existence
probe errors (all earlier targets having answered), the pass aborts at that
target with the aggregated probe error, writes `BackupTargetFound=Unknown`
for it, writes no condition for any later target, schedules no requeue and
never attempts the trigger CronJob. -/
theorem missing_target_defers_trigger_schedule (env : ClusterEnv)
    (inv : BackupInvoker) (key : String)
    (hdel : inv.deletionTimestamp = none)
    (haf : env.addFinalizerErr = none)
    (hcond : ∀ c, env.condFail c = none)
    (hw : ∀ r, env.workloadQueueErr r = none)
    (hkind : inv.kind = ResourceKindBackupConfiguration)
    (hpre : isDefaultDriver inv.driver = true →
      ∃ repo, env.repoLookup inv.repository = .found repo ∧
        env.secretLookup repo.ns repo.backendSecretName = .found ()) :
    ((∀ r ∈ targetRefs inv.targetsInfo, ∃ b,
        env.targetExist r inv.ns = Except.ok b) →
     (∃ r ∈ targetRefs inv.targetsInfo,
        env.targetExist r inv.ns = Except.ok false) →
      (applyBackupInvokerReconciliationLogic env inv key).1 = none ∧
      (applyBackupInvokerReconciliationLogic env inv
          key).2.cronJobEnsureAttempted = false ∧
      (applyBackupInvokerReconciliationLogic env inv key).2.requeues =
        [(key, 5)] ∧
      (∀ r ∈ targetRefs inv.targetsInfo,
        (env.targetExist r inv.ns = Except.ok true →
          Cond.mk (.backupTargetFound r) .ctrue ∈
            (applyBackupInvokerReconciliationLogic env inv key).2.conds) ∧
        (env.targetExist r inv.ns = Except.ok false →
          Cond.mk (.backupTargetFound r) .cfalse ∈
            (applyBackupInvokerReconciliationLogic env inv key).2.conds))) ∧
    (∀ l1 ti l2 t e, inv.targetsInfo = l1 ++ ti :: l2 →
      ti.target = some t →
      env.targetExist t.ref inv.ns = Except.error e →
      (∀ r ∈ targetRefs l1, ∃ b, env.targetExist r inv.ns = Except.ok b) →
      (targetRefs inv.targetsInfo).Nodup →
      (applyBackupInvokerReconciliationLogic env inv key).1 = some e ∧
      (applyBackupInvokerReconciliationLogic env inv key).2.requeues = [] ∧
      (applyBackupInvokerReconciliationLogic env inv
          key).2.cronJobEnsureAttempted = false ∧
      Cond.mk (.backupTargetFound t.ref) .cunknown ∈
        (applyBackupInvokerReconciliationLogic env inv key).2.conds ∧
      (∀ r ∈ targetRefs l2, ∀ s,
        Cond.mk (.backupTargetFound r) s ∉
          (applyBackupInvokerReconciliationLogic env inv key).2.conds)) := by
  obtain ⟨st, heq, hreq, hatt, hshape⟩ :=
    reconcile_reaches_targetPhase env inv key hdel haf hcond hpre
  constructor
  · intro hall hex
    obtain ⟨h1, h2, h3, h4⟩ :=
      targetLoop_all_ok env inv hcond hw inv.targetsInfo false st hall
    obtain ⟨hs1, hs2, hs3⟩ := targetLoop_stable env inv inv.targetsInfo false st
    have hany : inv.targetsInfo.any (probedMissing env inv) = true :=
      (any_probedMissing_iff env inv inv.targetsInfo).mpr hex
    rcases hloop : targetLoop env inv inv.targetsInfo false st with ⟨oe, miss, st'⟩
    rw [hloop] at h1 h2 h3 h4 hs1 hs2 hs3
    simp only [Bool.false_or] at h1 h2 h3 h4 hs1 hs2 hs3
    subst h1
    rw [hany] at h2
    subst h2
    have htp : targetPhase env inv key st =
        (none, { st' with requeues := st'.requeues ++ [(key, 5)] }) := by
      simp [targetPhase, hloop, requeueInvoker, hkind]
    refine ⟨?_, ?_, ?_, ?_⟩
    · rw [heq, htp]
    · rw [heq, htp]
      simpa using hs2.trans hatt
    · rw [heq, htp]
      simp [hs1, hreq]
    · intro r hr
      refine ⟨fun hrt => ?_, fun hrf => ?_⟩
      · rw [heq, htp]
        simpa using h3 r hr hrt
      · rw [heq, htp]
        simpa using h4 r hr hrf
  · intro l1 ti l2 t e hsplit hti hx hppre hnodup
    obtain ⟨h1, h2, h3⟩ :=
      targetLoop_first_error env inv hcond hw l1 ti l2 t e false st hti hx hppre
    rw [← hsplit] at h1 h2 h3
    obtain ⟨hs1, hs2, hs3⟩ := targetLoop_stable env inv inv.targetsInfo false st
    rcases hloop : targetLoop env inv inv.targetsInfo false st with ⟨oe, miss, st'⟩
    rw [hloop] at h1 h2 h3 hs1 hs2 hs3
    simp only at h1 h2 h3 hs1 hs2 hs3
    subst h1
    have htp : targetPhase env inv key st = (some e, st') := by
      simp [targetPhase, hloop]
    have hrefs_split : targetRefs inv.targetsInfo =
        targetRefs l1 ++ t.ref :: targetRefs l2 := by
      rw [hsplit, targetRefs_append, targetRefs_cons_some ti t l2 hti]
    rw [hrefs_split] at hnodup
    have hdisj := List.disjoint_of_nodup_append hnodup
    have hnotin2 : t.ref ∉ targetRefs l2 :=
      (List.nodup_cons.mp hnodup.of_append_right).1
    refine ⟨?_, ?_, ?_, ?_, ?_⟩
    · rw [heq, htp]
    · rw [heq, htp]
      simpa using hs1.trans hreq
    · rw [heq, htp]
      simpa using hs2.trans hatt
    · rw [heq, htp]
      simpa using h2
    · intro r hr s hmem
      rw [heq, htp] at hmem
      simp only at hmem
      rcases h3 _ hmem with hin | ⟨r', hr', hty⟩ | hEq
      · exact (hshape _ hin r s) rfl
      · have hrr : r = r' := by simpa using hty
        subst hrr
        exact (hdisj hr') (List.mem_cons_of_mem _ hr)
      · have : r = t.ref := by
          simpa using congrArg Cond.type hEq
        subst this
        exact hnotin2 hr

end StashController

namespace StashController

/-- Concrete run of C1: with the second of two targets missing, the pass
returns nil, skips the trigger CronJob, schedules the single 5-second
requeue and writes conditions True/False for the existing/missing target;
with the second target's probe erroring instead, the pass aborts with that
error, writes `Unknown` for it and schedules no requeue. -/
theorem missing_target_defers_trigger_schedule_witness :
    ((applyBackupInvokerReconciliationLogic targetMissingEnv witnessInvoker
        "demo/bc-1").1 = none ∧
     (applyBackupInvokerReconciliationLogic targetMissingEnv witnessInvoker
        "demo/bc-1").2.cronJobEnsureAttempted = false ∧
     (applyBackupInvokerReconciliationLogic targetMissingEnv witnessInvoker
        "demo/bc-1").2.requeues = [("demo/bc-1", 5)] ∧
     Cond.mk (.backupTargetFound witnessTargetRef1) .ctrue ∈
       (applyBackupInvokerReconciliationLogic targetMissingEnv witnessInvoker
        "demo/bc-1").2.conds ∧
     Cond.mk (.backupTargetFound witnessTargetRef2) .cfalse ∈
       (applyBackupInvokerReconciliationLogic targetMissingEnv witnessInvoker
        "demo/bc-1").2.conds) ∧
    ((applyBackupInvokerReconciliationLogic targetProbeErrorEnv witnessInvoker
        "demo/bc-1").1 = some "target probe timed out" ∧
     (applyBackupInvokerReconciliationLogic targetProbeErrorEnv witnessInvoker
        "demo/bc-1").2.requeues = [] ∧
     Cond.mk (.backupTargetFound witnessTargetRef2) .cunknown ∈
       (applyBackupInvokerReconciliationLogic targetProbeErrorEnv witnessInvoker
        "demo/bc-1").2.conds) := by
  have hmem1 : witnessTargetRef1 ∈ targetRefs witnessInvoker.targetsInfo := by
    simp [targetRefs, witnessInvoker]
  have hmem2 : witnessTargetRef2 ∈ targetRefs witnessInvoker.targetsInfo := by
    simp [targetRefs, witnessInvoker]
  constructor
  · have hall : ∀ r ∈ targetRefs witnessInvoker.targetsInfo, ∃ b,
        targetMissingEnv.targetExist r witnessInvoker.ns = Except.ok b := by
      intro r hr
      rcases (by simpa [targetRefs, witnessInvoker] using hr :
          r = witnessTargetRef1 ∨ r = witnessTargetRef2) with rfl | rfl
      · exact ⟨true, by rfl⟩
      · exact ⟨false, by rfl⟩
    have h := (missing_target_defers_trigger_schedule targetMissingEnv
      witnessInvoker "demo/bc-1" rfl rfl (fun _ => rfl) (fun _ => rfl) rfl
      (fun _ => ⟨{ ns := "demo", backendSecretName := "backup-secret" },
        rfl, rfl⟩)).1 hall ⟨witnessTargetRef2, hmem2, by rfl⟩
    exact ⟨h.1, h.2.1, h.2.2.1,
      (h.2.2.2 witnessTargetRef1 hmem1).1 (by rfl),
      (h.2.2.2 witnessTargetRef2 hmem2).2 (by rfl)⟩
  · have hppre : ∀ r ∈ targetRefs [({ target := some { ref := witnessTargetRef1 } } : TargetInfo)],
        ∃ b, targetProbeErrorEnv.targetExist r witnessInvoker.ns = Except.ok b := by
      intro r hr
      rcases (by simpa [targetRefs] using hr : r = witnessTargetRef1) with rfl
      exact ⟨true, by rfl⟩
    have h := (missing_target_defers_trigger_schedule targetProbeErrorEnv
      witnessInvoker "demo/bc-1" rfl rfl (fun _ => rfl) (fun _ => rfl) rfl
      (fun _ => ⟨{ ns := "demo", backendSecretName := "backup-secret" },
        rfl, rfl⟩)).2
      [{ target := some { ref := witnessTargetRef1 } }]
      { target := some { ref := witnessTargetRef2 } } []
      { ref := witnessTargetRef2 } "target probe timed out"
      rfl rfl (by rfl) hppre (by decide)
    exact ⟨h.1, h.2.1, h.2.2.2.1⟩

end StashController
